import Mathlib

/-!
Verification development for the Sideband protocol core
(packages/protocol, packages/rpc, packages/runtime).

Shallow embedding conventions:
* `Uint8Array` values are `List Nat`; writes into typed arrays coerce
  modulo 256, mirrored by `toByte` / `asBytes`.
* JavaScript strings are lists of Unicode scalar values (`List Nat`);
  `TextEncoder` is `utf8Encode`, the default (non-fatal) `TextDecoder`
  is `utf8DecodeReplace` (WHATWG decoding with U+FFFD replacement).
* Fallible code returns `Except CodecErr _`; `ProtocolError` with an
  `ErrorCode` is `CodecErr.protocolError code` and a plain JS `Error`
  (or `RangeError`) is `CodecErr.jsError`.
-/

namespace Sideband

/-- Coercion applied when a number is stored into a `Uint8Array`. -/
def toByte (v : Nat) : Nat := v % 256

/-- Storing a whole list of numbers into a `Uint8Array`. -/
def asBytes (l : List Nat) : List Nat := l.map toByte

/-- `DataView.setUint16(_, n, true)`: little-endian bytes of `n` mod 2^16. -/
def u16le (n : Nat) : List Nat := [n % 256, n / 256 % 256]

/-- `DataView.setUint32(_, n, true)`: little-endian bytes of `n` mod 2^32. -/
def u32le (n : Nat) : List Nat :=
  [n % 256, n / 256 % 256, n / 65536 % 256, n / 16777216 % 256]

/-- `DataView.getUint16(0, true)` on a byte list. -/
def readU16 (p : List Nat) : Nat := p.getD 0 0 + 256 * p.getD 1 0

/-- `DataView.getUint32(0, true)` on a byte list. -/
def readU32 (p : List Nat) : Nat :=
  p.getD 0 0 + 256 * p.getD 1 0 + 65536 * p.getD 2 0 + 16777216 * p.getD 3 0

theorem readU16_u16le (n : Nat) (rest : List Nat) :
    readU16 (u16le n ++ rest) = n % 65536 := by
  simp only [readU16, u16le, List.cons_append, List.nil_append,
    List.getD_cons_zero, List.getD_cons_succ]
  omega

theorem readU32_u32le (n : Nat) (rest : List Nat) :
    readU32 (u32le n ++ rest) = n % 4294967296 := by
  simp only [readU32, u32le, List.cons_append, List.nil_append,
    List.getD_cons_zero, List.getD_cons_succ]
  omega

/-- Unicode scalar values: code points outside the surrogate range. -/
def validScalarB (c : Nat) : Bool :=
  decide (c < 1114112) && !decide (55296 ≤ c ∧ c ≤ 57343)

/-- UTF-8 encoding of one scalar value (what `TextEncoder` emits per
character of a well-formed string). -/
def utf8EncodeChar (c : Nat) : List Nat :=
  if c ≤ 0x7F then [c]
  else if c ≤ 0x7FF then [0xC0 + c / 64, 0x80 + c % 64]
  else if c ≤ 0xFFFF then [0xE0 + c / 4096, 0x80 + c / 64 % 64, 0x80 + c % 64]
  else [0xF0 + c / 262144, 0x80 + c / 4096 % 64, 0x80 + c / 64 % 64, 0x80 + c % 64]

/-- `new TextEncoder().encode` on a scalar-value string. -/
def utf8Encode : List Nat → List Nat
  | [] => []
  | c :: cs => utf8EncodeChar c ++ utf8Encode cs

/-- The WHATWG UTF-8 decoder in non-fatal mode, as run by
`new TextDecoder().decode`: malformed input is replaced by U+FFFD
(`0xFFFD`), never an exception. -/
def utf8DecodeReplace : List Nat → List Nat
  | [] => []
  | b :: rest =>
    if b ≤ 0x7F then b :: utf8DecodeReplace rest
    else if b < 0xC2 then 0xFFFD :: utf8DecodeReplace rest
    else if b ≤ 0xDF then
      match rest with
      | [] => [0xFFFD]
      | b1 :: rest1 =>
        if 0x80 ≤ b1 ∧ b1 ≤ 0xBF then
          ((b - 0xC0) * 64 + (b1 - 0x80)) :: utf8DecodeReplace rest1
        else 0xFFFD :: utf8DecodeReplace (b1 :: rest1)
    else if b ≤ 0xEF then
      match rest with
      | [] => [0xFFFD]
      | b1 :: rest1 =>
        if (if b = 0xE0 then 0xA0 else 0x80) ≤ b1 ∧
            b1 ≤ (if b = 0xED then 0x9F else 0xBF) then
          match rest1 with
          | [] => [0xFFFD]
          | b2 :: rest2 =>
            if 0x80 ≤ b2 ∧ b2 ≤ 0xBF then
              ((b - 0xE0) * 4096 + (b1 - 0x80) * 64 + (b2 - 0x80)) ::
                utf8DecodeReplace rest2
            else 0xFFFD :: utf8DecodeReplace (b2 :: rest2)
        else 0xFFFD :: utf8DecodeReplace (b1 :: rest1)
    else if b ≤ 0xF4 then
      match rest with
      | [] => [0xFFFD]
      | b1 :: rest1 =>
        if (if b = 0xF0 then 0x90 else 0x80) ≤ b1 ∧
            b1 ≤ (if b = 0xF4 then 0x8F else 0xBF) then
          match rest1 with
          | [] => [0xFFFD]
          | b2 :: rest2 =>
            if 0x80 ≤ b2 ∧ b2 ≤ 0xBF then
              match rest2 with
              | [] => [0xFFFD]
              | b3 :: rest3 =>
                if 0x80 ≤ b3 ∧ b3 ≤ 0xBF then
                  ((b - 0xF0) * 262144 + (b1 - 0x80) * 4096 +
                    (b2 - 0x80) * 64 + (b3 - 0x80)) :: utf8DecodeReplace rest3
                else 0xFFFD :: utf8DecodeReplace (b3 :: rest3)
            else 0xFFFD :: utf8DecodeReplace (b2 :: rest2)
        else 0xFFFD :: utf8DecodeReplace (b1 :: rest1)
    else 0xFFFD :: utf8DecodeReplace rest

/-- Strict well-formedness of a UTF-8 byte sequence (the wire-format
notion of a valid string field). -/
def isUtf8B : List Nat → Bool
  | [] => true
  | b :: rest =>
    if b ≤ 0x7F then isUtf8B rest
    else if b < 0xC2 then false
    else if b ≤ 0xDF then
      match rest with
      | [] => false
      | b1 :: rest1 =>
        decide (0x80 ≤ b1 ∧ b1 ≤ 0xBF) && isUtf8B rest1
    else if b ≤ 0xEF then
      match rest with
      | [] => false
      | b1 :: rest1 =>
        (decide ((if b = 0xE0 then 0xA0 else 0x80) ≤ b1 ∧
            b1 ≤ (if b = 0xED then 0x9F else 0xBF))) &&
        (match rest1 with
         | [] => false
         | b2 :: rest2 => decide (0x80 ≤ b2 ∧ b2 ≤ 0xBF) && isUtf8B rest2)
    else if b ≤ 0xF4 then
      match rest with
      | [] => false
      | b1 :: rest1 =>
        (decide ((if b = 0xF0 then 0x90 else 0x80) ≤ b1 ∧
            b1 ≤ (if b = 0xF4 then 0x8F else 0xBF))) &&
        (match rest1 with
         | [] => false
         | b2 :: rest2 =>
           decide (0x80 ≤ b2 ∧ b2 ≤ 0xBF) &&
           (match rest2 with
            | [] => false
            | b3 :: rest3 => decide (0x80 ≤ b3 ∧ b3 ≤ 0xBF) && isUtf8B rest3))
    else false

end Sideband

namespace Sideband

theorem utf8DecodeReplace_one (b : Nat) (rest : List Nat) (h : b ≤ 0x7F) :
    utf8DecodeReplace (b :: rest) = b :: utf8DecodeReplace rest := by
  rw [utf8DecodeReplace.eq_def]
  dsimp only
  rw [if_pos h]

theorem utf8DecodeReplace_two (b0 b1 : Nat) (rest : List Nat)
    (h0 : 0xC2 ≤ b0) (h0' : b0 ≤ 0xDF) (h1 : 0x80 ≤ b1) (h1' : b1 ≤ 0xBF) :
    utf8DecodeReplace (b0 :: b1 :: rest) =
      ((b0 - 0xC0) * 64 + (b1 - 0x80)) :: utf8DecodeReplace rest := by
  rw [utf8DecodeReplace.eq_def]
  dsimp only
  rw [if_neg (by omega), if_neg (by omega), if_pos (by omega), if_pos ⟨h1, h1'⟩]

theorem utf8DecodeReplace_three (b0 b1 b2 : Nat) (rest : List Nat)
    (h0 : 0xE0 ≤ b0) (h0' : b0 ≤ 0xEF)
    (h1 : (if b0 = 0xE0 then 0xA0 else 0x80) ≤ b1)
    (h1' : b1 ≤ (if b0 = 0xED then 0x9F else 0xBF))
    (h2 : 0x80 ≤ b2) (h2' : b2 ≤ 0xBF) :
    utf8DecodeReplace (b0 :: b1 :: b2 :: rest) =
      ((b0 - 0xE0) * 4096 + (b1 - 0x80) * 64 + (b2 - 0x80)) ::
        utf8DecodeReplace rest := by
  rw [utf8DecodeReplace.eq_def]
  dsimp only
  rw [if_neg (by omega), if_neg (by omega), if_neg (by omega), if_pos (by omega),
    if_pos ⟨h1, h1'⟩, if_pos ⟨h2, h2'⟩]

theorem utf8DecodeReplace_four (b0 b1 b2 b3 : Nat) (rest : List Nat)
    (h0 : 0xF0 ≤ b0) (h0' : b0 ≤ 0xF4)
    (h1 : (if b0 = 0xF0 then 0x90 else 0x80) ≤ b1)
    (h1' : b1 ≤ (if b0 = 0xF4 then 0x8F else 0xBF))
    (h2 : 0x80 ≤ b2) (h2' : b2 ≤ 0xBF)
    (h3 : 0x80 ≤ b3) (h3' : b3 ≤ 0xBF) :
    utf8DecodeReplace (b0 :: b1 :: b2 :: b3 :: rest) =
      ((b0 - 0xF0) * 262144 + (b1 - 0x80) * 4096 + (b2 - 0x80) * 64 +
        (b3 - 0x80)) :: utf8DecodeReplace rest := by
  rw [utf8DecodeReplace.eq_def]
  dsimp only
  rw [if_neg (by omega), if_neg (by omega), if_neg (by omega), if_neg (by omega),
    if_pos (by omega), if_pos ⟨h1, h1'⟩, if_pos ⟨h2, h2'⟩, if_pos ⟨h3, h3'⟩]

set_option maxRecDepth 8000 in
theorem utf8DecodeReplace_encodeChar (c : Nat) (h : validScalarB c = true)
    (rest : List Nat) :
    utf8DecodeReplace (utf8EncodeChar c ++ rest) = c :: utf8DecodeReplace rest := by
  simp only [validScalarB, Bool.and_eq_true, decide_eq_true_eq,
    Bool.not_eq_true', decide_eq_false_iff_not] at h
  rw [utf8EncodeChar]
  by_cases hc1 : c ≤ 0x7F
  · rw [if_pos hc1, List.singleton_append, utf8DecodeReplace_one c rest hc1]
  · rw [if_neg hc1]
    by_cases hc2 : c ≤ 0x7FF
    · rw [if_pos hc2]
      simp only [List.cons_append, List.nil_append]
      rw [utf8DecodeReplace_two _ _ _ (by omega) (by omega) (by omega) (by omega)]
      congr 1
      omega
    · rw [if_neg hc2]
      by_cases hc3 : c ≤ 0xFFFF
      · rw [if_pos hc3]
        simp only [List.cons_append, List.nil_append]
        rw [utf8DecodeReplace_three _ _ _ _ (by omega) (by omega)
          (by split <;> omega) (by split <;> omega) (by omega) (by omega)]
        congr 1
        omega
      · rw [if_neg hc3]
        simp only [List.cons_append, List.nil_append]
        rw [utf8DecodeReplace_four _ _ _ _ _ (by omega) (by omega)
          (by split <;> omega) (by split <;> omega) (by omega) (by omega)
          (by omega) (by omega)]
        congr 1
        omega

theorem utf8_roundtrip (s : List Nat) (h : s.all validScalarB = true) :
    utf8DecodeReplace (utf8Encode s) = s := by
  induction s with
  | nil => rfl
  | cons c cs ih =>
    simp only [List.all_cons, Bool.and_eq_true] at h
    rw [utf8Encode, utf8DecodeReplace_encodeChar c h.1, ih h.2]

end Sideband

namespace Sideband

/-- Character codes of a Lean string literal (used to write JS string
constants in the embedding). -/
def strChars (s : String) : List Nat := s.data.map Char.toNat

/-- Error values thrown by the embedded code: `ProtocolError` carries its
`ErrorCode`; plain `Error` / `RangeError` have no code. -/
inductive CodecErr
  | protocolError (code : Nat)
  | jsError
deriving DecidableEq

namespace ErrorCode

/-- `ErrorCode.ProtocolViolation` from constants.ts. -/
def ProtocolViolation : Nat := 1000

/-- `ErrorCode.UnsupportedVersion` from constants.ts. -/
def UnsupportedVersion : Nat := 1001

/-- `ErrorCode.InvalidFrame` from constants.ts. -/
def InvalidFrame : Nat := 1002

/-- `ErrorCode.ApplicationError` from constants.ts. -/
def ApplicationError : Nat := 2000

end ErrorCode

/-- `asFrameId` from types.ts: length-only validation (exactly 16 bytes),
`ProtocolError` with `InvalidFrame` otherwise. -/
def asFrameId (value : List Nat) : Except CodecErr (List Nat) :=
  if value.length ≠ 16 then .error (.protocolError ErrorCode.InvalidFrame)
  else .ok value

/-- `startsWithB pat s` is JS `s.startsWith(pat)` for ASCII patterns. -/
def startsWithB : List Nat → List Nat → Bool
  | [], _ => true
  | _ :: _, [] => false
  | p :: ps, c :: cs => decide (c = p) && startsWithB ps cs

/-- `RESERVED_SUBJECT_PREFIXES` from types.ts. -/
def reservedNamespaces : List (List Nat) :=
  [strChars "rpc/", strChars "event/", strChars "stream/", strChars "app/"]

/-- `MAX_SUBJECT_BYTES` from types.ts. -/
def MAX_SUBJECT_BYTES : Nat := 256

/-- `asSubject` from types.ts: rejects null bytes, an empty or oversized
UTF-8 encoding, and a missing reserved namespace, always with
`ProtocolError(ProtocolViolation)`; returns the input verbatim on success. -/
def asSubject (value : List Nat) : Except CodecErr (List Nat) :=
  if value.contains 0 then .error (.protocolError ErrorCode.ProtocolViolation)
  else
    let utf8Bytes := utf8Encode value
    if utf8Bytes.length = 0 then .error (.protocolError ErrorCode.ProtocolViolation)
    else if utf8Bytes.length > MAX_SUBJECT_BYTES then
      .error (.protocolError ErrorCode.ProtocolViolation)
    else if reservedNamespaces.any (fun p => startsWithB p value) then .ok value
    else .error (.protocolError ErrorCode.ProtocolViolation)

/-- Lowercase hex digit character for a value below 16
(`Number.prototype.toString(16)` on one digit). -/
def hexDigitChar (n : Nat) : Nat := if n < 10 then 48 + n else 87 + n

/-- `b.toString(16).padStart(2, "0")` for a byte `b < 256`. -/
def byteToHex (b : Nat) : List Nat := [hexDigitChar (b / 16), hexDigitChar (b % 16)]

/-- Hex rendering of a byte array (used by `frameIdToHex` in types.ts and
`cidToKey` in correlation.ts). -/
def bytesToHex : List Nat → List Nat
  | [] => []
  | b :: bs => byteToHex b ++ bytesToHex bs

/-- `frameIdToHex` from types.ts. -/
def frameIdToHex (id : List Nat) : List Nat := bytesToHex id

/-- Membership in the character class `[0-9a-f]`. -/
def isLowerHexDigit (c : Nat) : Bool :=
  (decide (48 ≤ c) && decide (c ≤ 57)) || (decide (97 ≤ c) && decide (c ≤ 102))

/-- `parseInt` value of one `[0-9a-f]` character. -/
def hexVal (c : Nat) : Nat := if c ≤ 57 then c - 48 else c - 87

/-- The 16-iteration parse loop of `frameIdFromHex`: each successive pair
of hex characters becomes one byte. -/
def hexPairsToBytes : List Nat → List Nat
  | c1 :: c2 :: r => (hexVal c1 * 16 + hexVal c2) :: hexPairsToBytes r
  | _ => []

/-- `frameIdFromHex` from types.ts: requires 32 characters matching
`[0-9a-f]{32}` (plain `Error` otherwise), then parses byte pairs. -/
def frameIdFromHex (hex : List Nat) : Except CodecErr (List Nat) :=
  if hex.length ≠ 32 ∨ hex.all isLowerHexDigit = false then .error .jsError
  else asFrameId (hexPairsToBytes hex)

/-- The `Frame` discriminated union from frames.ts (current, ADR-004
variant): control frames keep their numeric `op` and optional `data` so
that the per-op invariants of the codec are observable. -/
inductive Frame
  | control (frameId : List Nat) (op : Nat) (data : Option (List Nat))
  | message (frameId : List Nat) (subject : List Nat) (data : List Nat)
  | ack (frameId : List Nat) (ackFrameId : List Nat)
  | error (frameId : List Nat) (code : Nat) (message : List Nat)
      (details : Option (List Nat))
deriving DecidableEq

/-- The `FrameKind` enum value carried in `frame.kind`. -/
def Frame.kindByte : Frame → Nat
  | .control .. => 0
  | .message .. => 1
  | .ack .. => 2
  | .error .. => 3

/-- The `frameId` field shared by all frame variants. -/
def Frame.fid : Frame → List Nat
  | .control i .. => i
  | .message i .. => i
  | .ack i _ => i
  | .error i .. => i

/-- `encodeFramePayload` from codec.ts (type-specific payload bytes,
enforcing the per-op control invariants of ADR 002). -/
def encodeFramePayload : Frame → Except CodecErr (List Nat)
  | .control _ op data =>
    if op = 0 then
      -- Handshake requires data (JSON-encoded HandshakePayload)
      match data with
      | some d =>
        if d.length = 0 then .error (.protocolError ErrorCode.InvalidFrame)
        else .ok (toByte op :: asBytes d)
      | none => .error (.protocolError ErrorCode.InvalidFrame)
    else if op = 1 ∨ op = 2 then
      -- Ping/Pong must not carry payload
      match data with
      | some _ => .error (.protocolError ErrorCode.InvalidFrame)
      | none => .ok [toByte op]
    else if op = 3 then
      -- Close may optionally have reason bytes; an empty Uint8Array is
      -- still truthy in JS, so a present empty array is appended as-is
      match data with
      | some d => .ok (toByte op :: asBytes d)
      | none => .ok [toByte op]
    else .error (.protocolError ErrorCode.InvalidFrame)
  | .message _ subject data =>
    let subjectBytes := utf8Encode subject
    .ok (u32le subjectBytes.length ++ asBytes subjectBytes ++ asBytes data)
  | .ack _ ackFrameId => .ok (asBytes ackFrameId)
  | .error _ code message details =>
    let msgBytes := utf8Encode message
    .ok (u16le code ++ u32le msgBytes.length ++ asBytes msgBytes ++
      asBytes (details.getD []))

/-- `Uint8Array.prototype.set`: throws `RangeError` when the source does
not fit, otherwise overwrites in place (coercing each element mod 256). -/
def writeAt (buf : List Nat) (off : Nat) (src : List Nat) : Option (List Nat) :=
  if off + src.length ≤ buf.length then
    some (buf.take off ++ asBytes src ++ buf.drop (off + src.length))
  else none

/-- Adapter from a possibly out-of-range typed-array write to the thrown
JS `RangeError`. -/
def orRangeErr (o : Option (List Nat)) : Except CodecErr (List Nat) :=
  match o with
  | some l => .ok l
  | none => .error .jsError

/-- `encodeFrame` from codec.ts: 1 kind byte, 1 zero flags byte, the
frame identifier written at offset 2 of a zero buffer, payload at 18. -/
def encodeFrame (frame : Frame) : Except CodecErr (List Nat) := do
  let payloadBytes ← encodeFramePayload frame
  let totalSize := 18 + payloadBytes.length
  let b0 := List.replicate totalSize 0
  let b1 ← orRangeErr (writeAt b0 0 [frame.kindByte])
  let b2 ← orRangeErr (writeAt b1 1 [0])
  let b3 ← orRangeErr (writeAt b2 2 frame.fid)
  let b4 ← orRangeErr (writeAt b3 18 payloadBytes)
  .ok b4

/-- `decodeFramePayload` from codec.ts (current variant, with op
invariants validated during decode). -/
def decodeFramePayload (frameKind : Nat) (payload : List Nat)
    (frameId : List Nat) : Except CodecErr Frame :=
  if frameKind = 0 then
    if payload.length < 1 then .error (.protocolError ErrorCode.InvalidFrame)
    else
      let op := payload.getD 0 0
      let remainingPayload :=
        if payload.length > 1 then some (payload.drop 1) else none
      if op = 0 then
        -- Handshake requires data
        match remainingPayload with
        | some d =>
          if d.length = 0 then .error (.protocolError ErrorCode.InvalidFrame)
          else .ok (.control frameId 0 (some d))
        | none => .error (.protocolError ErrorCode.InvalidFrame)
      else if op = 1 then
        match remainingPayload with
        | some _ => .error (.protocolError ErrorCode.InvalidFrame)
        | none => .ok (.control frameId 1 none)
      else if op = 2 then
        match remainingPayload with
        | some _ => .error (.protocolError ErrorCode.InvalidFrame)
        | none => .ok (.control frameId 2 none)
      else if op = 3 then .ok (.control frameId 3 remainingPayload)
      else .error (.protocolError ErrorCode.InvalidFrame)
  else if frameKind = 1 then
    if payload.length < 4 then .error (.protocolError ErrorCode.InvalidFrame)
    else
      let subjectLen := readU32 payload
      if payload.length < 4 + subjectLen then
        .error (.protocolError ErrorCode.InvalidFrame)
      else do
        let rawSubject := utf8DecodeReplace ((payload.drop 4).take subjectLen)
        let subject ← asSubject rawSubject
        let framePayload := payload.drop (4 + subjectLen)
        .ok (.message frameId subject framePayload)
  else if frameKind = 2 then
    if payload.length < 16 then .error (.protocolError ErrorCode.InvalidFrame)
    else if payload.length > 16 then .error (.protocolError ErrorCode.InvalidFrame)
    else do
      let ackFrameId ← asFrameId (payload.take 16)
      .ok (.ack frameId ackFrameId)
  else if frameKind = 3 then
    if payload.length < 6 then .error (.protocolError ErrorCode.InvalidFrame)
    else
      let code := readU16 payload
      let msgLen := readU32 (payload.drop 2)
      if payload.length < 6 + msgLen then
        .error (.protocolError ErrorCode.InvalidFrame)
      else
        let message := utf8DecodeReplace ((payload.drop 6).take msgLen)
        let framePayload :=
          if payload.length > 6 + msgLen then some (payload.drop (6 + msgLen))
          else none
        .ok (.error frameId code message framePayload)
  else .error (.protocolError ErrorCode.InvalidFrame)

/-- `decodeFrame` from codec.ts: header checks, 16-byte frame id, then
the type-specific payload decoder. -/
def decodeFrame (buffer : List Nat) : Except CodecErr Frame :=
  if buffer.length < 18 then .error (.protocolError ErrorCode.InvalidFrame)
  else
    let frameKind := buffer.getD 0 0
    let flags := buffer.getD 1 0
    if flags ≠ 0 then .error (.protocolError ErrorCode.InvalidFrame)
    else do
      let frameId ← asFrameId ((buffer.drop 2).take 16)
      let payload := buffer.drop 18
      decodeFramePayload frameKind payload frameId

/-- Composition `decodeFrame(encodeFrame(F))` used by the round-trip law. -/
def frameRoundTrip (f : Frame) : Except CodecErr Frame :=
  (encodeFrame f).bind decodeFrame

end Sideband

namespace Sideband

/-- All entries of a list are bytes (fit in a `Uint8Array` untouched). -/
def allBytesB (l : List Nat) : Bool := l.all (fun b => decide (b < 256))

theorem asBytes_eq_self (l : List Nat) (h : allBytesB l = true) : asBytes l = l := by
  induction l with
  | nil => rfl
  | cons b bs ih =>
    simp only [allBytesB, List.all_cons, Bool.and_eq_true, decide_eq_true_eq] at h
    simp only [asBytes, List.map_cons, toByte, Nat.mod_eq_of_lt h.1]
    have := ih (by simpa [allBytesB] using h.2)
    simpa [asBytes] using this

theorem utf8EncodeChar_bytes (c : Nat) (h : validScalarB c = true) :
    allBytesB (utf8EncodeChar c) = true := by
  simp only [validScalarB, Bool.and_eq_true, decide_eq_true_eq,
    Bool.not_eq_true', decide_eq_false_iff_not] at h
  rw [utf8EncodeChar]
  split
  · simp only [allBytesB, List.all_cons, List.all_nil, Bool.and_true, decide_eq_true_eq]
    omega
  · split
    · simp only [allBytesB, List.all_cons, List.all_nil, Bool.and_true,
        Bool.and_eq_true, decide_eq_true_eq]
      omega
    · split
      · simp only [allBytesB, List.all_cons, List.all_nil, Bool.and_true,
          Bool.and_eq_true, decide_eq_true_eq]
        omega
      · simp only [allBytesB, List.all_cons, List.all_nil, Bool.and_true,
          Bool.and_eq_true, decide_eq_true_eq]
        omega

theorem utf8Encode_bytes (s : List Nat) (h : s.all validScalarB = true) :
    allBytesB (utf8Encode s) = true := by
  induction s with
  | nil => rfl
  | cons c cs ih =>
    simp only [List.all_cons, Bool.and_eq_true] at h
    simp only [utf8Encode, allBytesB, List.all_append]
    have h1 := utf8EncodeChar_bytes c h.1
    have h2 := ih h.2
    simp only [allBytesB] at h1 h2
    simp [h1, h2]

/-- The success condition of `asSubject`, as the spec states it: 1..256
UTF-8 bytes, no null character, a reserved namespace at the front. -/
def subjectSpecB (s : List Nat) : Bool :=
  !(decide (0 ∈ s)) && decide (1 ≤ (utf8Encode s).length) &&
    decide ((utf8Encode s).length ≤ 256) &&
    reservedNamespaces.any (fun p => startsWithB p s)

theorem asSubject_ok (s : List Nat) (h : subjectSpecB s = true) :
    asSubject s = .ok s := by
  simp only [subjectSpecB, Bool.and_eq_true, Bool.not_eq_true',
    decide_eq_true_eq, decide_eq_false_iff_not] at h
  obtain ⟨⟨⟨h0, h1⟩, h2⟩, h3⟩ := h
  rw [asSubject]
  rw [if_neg (by simpa using h0), if_neg (by omega),
    if_neg (by simp only [MAX_SUBJECT_BYTES]; omega), if_pos h3]

theorem asSubject_err (s : List Nat) (h : subjectSpecB s = false) :
    asSubject s = .error (.protocolError ErrorCode.ProtocolViolation) := by
  rw [asSubject]
  by_cases hc : (0 ∈ s)
  · rw [if_pos (by simpa using hc)]
  · rw [if_neg (by simpa using hc)]
    by_cases he : (utf8Encode s).length = 0
    · rw [if_pos he]
    · rw [if_neg he]
      by_cases hl : (utf8Encode s).length > MAX_SUBJECT_BYTES
      · rw [if_pos hl]
      · rw [if_neg hl]
        rw [if_neg]
        intro hp
        have : subjectSpecB s = true := by
          simp only [subjectSpecB, Bool.and_eq_true, Bool.not_eq_true',
            decide_eq_true_eq, decide_eq_false_iff_not]
          simp only [MAX_SUBJECT_BYTES] at hl
          exact ⟨⟨⟨hc, by omega⟩, by omega⟩, hp⟩
        simp [this] at h

end Sideband

namespace Sideband

theorem hexVal_hexDigitChar (d : Nat) (h : d < 16) : hexVal (hexDigitChar d) = d := by
  rw [hexDigitChar]
  split <;> (rw [hexVal]; split <;> omega)

theorem isLowerHexDigit_hexDigitChar (d : Nat) (h : d < 16) :
    isLowerHexDigit (hexDigitChar d) = true := by
  rw [hexDigitChar]
  split <;> simp only [isLowerHexDigit, Bool.or_eq_true, Bool.and_eq_true,
    decide_eq_true_eq] <;> omega

theorem hexDigitChar_hexVal (c : Nat) (h : isLowerHexDigit c = true) :
    hexDigitChar (hexVal c) = c := by
  simp only [isLowerHexDigit, Bool.or_eq_true, Bool.and_eq_true,
    decide_eq_true_eq] at h
  rw [hexVal]
  split <;> (rw [hexDigitChar]; split <;> omega)

theorem hexVal_lt (c : Nat) (h : isLowerHexDigit c = true) : hexVal c < 16 := by
  simp only [isLowerHexDigit, Bool.or_eq_true, Bool.and_eq_true,
    decide_eq_true_eq] at h
  rw [hexVal]
  split <;> omega

theorem hexPairsToBytes_byteToHex (b : Nat) (hb : b < 256) (r : List Nat) :
    hexPairsToBytes (byteToHex b ++ r) = b :: hexPairsToBytes r := by
  simp only [byteToHex, List.cons_append, List.nil_append, hexPairsToBytes]
  rw [hexVal_hexDigitChar _ (by omega), hexVal_hexDigitChar _ (by omega)]
  congr 1
  omega

theorem hexPairsToBytes_bytesToHex (bs : List Nat) (h : allBytesB bs = true) :
    hexPairsToBytes (bytesToHex bs) = bs := by
  induction bs with
  | nil => rfl
  | cons b r ih =>
    simp only [allBytesB, List.all_cons, Bool.and_eq_true, decide_eq_true_eq] at h
    rw [bytesToHex, hexPairsToBytes_byteToHex b h.1, ih (by simpa [allBytesB] using h.2)]

theorem bytesToHex_hexPairsToBytes :
    ∀ (h : List Nat), h.all isLowerHexDigit = true → h.length % 2 = 0 →
      bytesToHex (hexPairsToBytes h) = h
  | [], _, _ => rfl
  | [_], _, hl => by simp at hl
  | c1 :: c2 :: r, hh, hl => by
    simp only [List.all_cons, Bool.and_eq_true] at hh
    obtain ⟨h1, h2, h3⟩ := hh
    rw [hexPairsToBytes, bytesToHex]
    rw [bytesToHex_hexPairsToBytes r h3 (by simp only [List.length_cons] at hl; omega)]
    have v1 := hexVal_lt c1 h1
    have v2 := hexVal_lt c2 h2
    have e1 : (hexVal c1 * 16 + hexVal c2) / 16 = hexVal c1 := by omega
    have e2 : (hexVal c1 * 16 + hexVal c2) % 16 = hexVal c2 := by omega
    rw [byteToHex, e1, e2, hexDigitChar_hexVal c1 h1, hexDigitChar_hexVal c2 h2]
    rfl

theorem bytesToHex_length (bs : List Nat) : (bytesToHex bs).length = 2 * bs.length := by
  induction bs with
  | nil => rfl
  | cons b r ih => simp [bytesToHex, byteToHex, ih]; omega

theorem bytesToHex_hexDigits (bs : List Nat) (h : allBytesB bs = true) :
    (bytesToHex bs).all isLowerHexDigit = true := by
  induction bs with
  | nil => rfl
  | cons b r ih =>
    simp only [allBytesB, List.all_cons, Bool.and_eq_true, decide_eq_true_eq] at h
    simp only [bytesToHex, List.all_append, Bool.and_eq_true]
    refine ⟨?_, ih (by simpa [allBytesB] using h.2)⟩
    simp only [byteToHex, List.all_cons, List.all_nil, Bool.and_true, Bool.and_eq_true]
    exact ⟨isLowerHexDigit_hexDigitChar _ (by omega), isLowerHexDigit_hexDigitChar _ (by omega)⟩

theorem hexPairsToBytes_length :
    ∀ (h : List Nat), h.length % 2 = 0 → (hexPairsToBytes h).length = h.length / 2
  | [], _ => rfl
  | [_], hl => by simp at hl
  | c1 :: c2 :: r, hl => by
    rw [hexPairsToBytes]
    simp only [List.length_cons]
    rw [hexPairsToBytes_length r (by simp only [List.length_cons] at hl; omega)]
    omega

theorem hexPairsToBytes_bytes :
    ∀ (h : List Nat), h.all isLowerHexDigit = true →
      allBytesB (hexPairsToBytes h) = true
  | [], _ => rfl
  | [_], _ => rfl
  | c1 :: c2 :: r, hh => by
    simp only [List.all_cons, Bool.and_eq_true] at hh
    rw [hexPairsToBytes]
    simp only [allBytesB, List.all_cons, Bool.and_eq_true, decide_eq_true_eq]
    have v1 := hexVal_lt c1 hh.1
    have v2 := hexVal_lt c2 hh.2.1
    exact ⟨by omega, by simpa [allBytesB] using hexPairsToBytes_bytes r hh.2.2⟩

end Sideband

namespace Sideband

theorem kindByte_lt (f : Frame) : f.kindByte < 256 := by
  cases f <;> simp [Frame.kindByte]

theorem encodeFrame_ok (f : Frame) (hf : f.fid.length = 16) (p : List Nat)
    (hp : encodeFramePayload f = .ok p) :
    encodeFrame f = .ok (f.kindByte :: 0 :: (asBytes f.fid ++ asBytes p)) := by
  have hk : toByte f.kindByte = f.kindByte := Nat.mod_eq_of_lt (kindByte_lt f)
  have w1 : writeAt (List.replicate (18 + p.length) 0) 0 [f.kindByte]
      = some (f.kindByte :: List.replicate (17 + p.length) 0) := by
    rw [writeAt, if_pos (by simp only [List.length_replicate, List.length_cons, List.length_nil]; omega)]
    simp only [List.take_zero, List.nil_append, asBytes, List.map_cons,
      List.map_nil, hk, List.length_cons, List.length_nil, Nat.zero_add,
      List.drop_replicate, List.singleton_append]
    rw [show 18 + p.length - 1 = 17 + p.length from by omega]
  have w2 : writeAt (f.kindByte :: List.replicate (17 + p.length) 0) 1 [0]
      = some (f.kindByte :: 0 :: List.replicate (16 + p.length) 0) := by
    rw [writeAt, if_pos (by simp only [List.length_replicate, List.length_cons, List.length_nil]; omega)]
    simp only [asBytes, List.map_cons, List.map_nil]
    rw [show toByte 0 = 0 from rfl]
    rw [show (f.kindByte :: List.replicate (17 + p.length) 0).take 1 = [f.kindByte] from by simp]
    rw [show (1 + [(0 : Nat)].length) = 2 from rfl]
    rw [show (f.kindByte :: List.replicate (17 + p.length) 0).drop 2
        = (List.replicate (17 + p.length) (0 : Nat)).drop 1 from by rfl]
    rw [List.drop_replicate, show 17 + p.length - 1 = 16 + p.length from by omega]
    rfl
  have w3 : writeAt (f.kindByte :: 0 :: List.replicate (16 + p.length) 0) 2 f.fid
      = some (f.kindByte :: 0 :: (asBytes f.fid ++ List.replicate p.length 0)) := by
    rw [writeAt, if_pos (by simp only [hf, List.length_replicate, List.length_cons, List.length_nil]; omega)]
    rw [show (f.kindByte :: 0 :: List.replicate (16 + p.length) 0).take 2
        = [f.kindByte, 0] from by simp]
    rw [show 2 + f.fid.length = 18 from by simp [hf]]
    rw [show (f.kindByte :: 0 :: List.replicate (16 + p.length) 0).drop 18
        = (List.replicate (16 + p.length) (0 : Nat)).drop 16 from by rfl]
    rw [List.drop_replicate, show 16 + p.length - 16 = p.length from by omega]
    rfl
  have hfa : (asBytes f.fid).length = 16 := by simp [asBytes, hf]
  have w4 : writeAt (f.kindByte :: 0 :: (asBytes f.fid ++ List.replicate p.length 0))
      18 p = some (f.kindByte :: 0 :: (asBytes f.fid ++ asBytes p)) := by
    have hlen : (f.kindByte :: 0 :: (asBytes f.fid ++ List.replicate p.length 0)).length
        = 18 + p.length := by simp [hfa]; omega
    rw [writeAt, if_pos (by rw [hlen])]
    rw [show (f.kindByte :: 0 :: (asBytes f.fid ++ List.replicate p.length 0)).take 18
        = f.kindByte :: 0 :: (asBytes f.fid ++ List.replicate p.length 0).take 16 from by rfl]
    rw [List.take_left' hfa]
    rw [show (18 : Nat) + p.length = 16 + p.length + 1 + 1 from by omega]
    rw [List.drop_succ_cons, List.drop_succ_cons]
    rw [show (16 + p.length) = (asBytes f.fid ++ List.replicate p.length 0).length from
      by simp [hfa], List.drop_length]
    simp
  rw [encodeFrame, hp]
  simp only [bind, Except.bind]
  rw [w1]
  simp only [orRangeErr]
  rw [w2]
  simp only [orRangeErr]
  rw [w3]
  simp only [orRangeErr]
  rw [w4]

end Sideband

namespace Sideband

theorem u32le_append_drop4 (n : Nat) (rest : List Nat) :
    (u32le n ++ rest).drop 4 = rest := by
  simp [u32le]

theorem u16le_append_drop2 (n : Nat) (rest : List Nat) :
    (u16le n ++ rest).drop 2 = rest := by
  simp [u16le]

theorem u32le_append_length (n : Nat) (rest : List Nat) :
    (u32le n ++ rest).length = 4 + rest.length := by
  simp [u32le]
  omega

theorem u16le_append_length (n : Nat) (rest : List Nat) :
    (u16le n ++ rest).length = 2 + rest.length := by
  simp [u16le]
  omega

theorem decodeFrame_header (k : Nat) (fid payload : List Nat)
    (hf : fid.length = 16) :
    decodeFrame (k :: 0 :: (fid ++ payload)) = decodeFramePayload k payload fid := by
  rw [decodeFrame]
  rw [if_neg (by simp [hf])]
  simp only [List.getD_cons_zero, List.getD_cons_succ]
  rw [if_neg (by simp)]
  rw [show (k :: 0 :: (fid ++ payload)).drop 2 = fid ++ payload from by rfl]
  rw [List.take_left' hf]
  rw [asFrameId]
  rw [if_neg (by simp [hf])]
  simp only [bind, Except.bind]
  rw [show (k :: 0 :: (fid ++ payload)).drop 18 = (fid ++ payload).drop 16 from by rfl]
  rw [List.drop_left' hf]

end Sideband

namespace Sideband

theorem asBytes_idem (l : List Nat) : asBytes (asBytes l) = asBytes l := by
  induction l with
  | nil => rfl
  | cons b bs ih =>
    simp only [asBytes, List.map_cons, toByte] at *
    rw [ih]
    congr 1
    omega

end Sideband

namespace Sideband

theorem allBytesB_append (a b : List Nat) :
    allBytesB (a ++ b) = (allBytesB a && allBytesB b) := by
  simp [allBytesB, List.all_append]

theorem allBytesB_u32le (n : Nat) : allBytesB (u32le n) = true := by
  simp [allBytesB, u32le]
  omega

theorem allBytesB_u16le (n : Nat) : allBytesB (u16le n) = true := by
  simp [allBytesB, u16le]
  omega

/-- Validity of a frame exactly as the round-trip claim circumscribes it:
the per-variant invariants (handshake data present and non-empty,
ping/pong data absent, subject a validated `Subject`, identifiers exactly
16 bytes), `Uint8Array` contents actual bytes, `ErrorCode` a 16-bit
number, strings well-formed scalar sequences. -/
def validFrameB : Frame → Bool
  | .control fid op data =>
    decide (fid.length = 16) && allBytesB fid && decide (op ≤ 3) &&
    (if op = 0 then
       (match data with
        | some d => decide (d ≠ []) && allBytesB d
        | none => false)
     else if op = 3 then
       (match data with
        | some d => allBytesB d
        | none => true)
     else decide (data = none))
  | .message fid subj data =>
    decide (fid.length = 16) && allBytesB fid && subj.all validScalarB &&
      subjectSpecB subj && allBytesB data
  | .ack fid aid =>
    decide (fid.length = 16) && allBytesB fid &&
      decide (aid.length = 16) && allBytesB aid
  | .error fid code msg det =>
    decide (fid.length = 16) && allBytesB fid && decide (code < 65536) &&
      msg.all validScalarB &&
      (match det with
       | some d => allBytesB d
       | none => true)

/-- Validity strengthened by what the codec actually requires for
round-trip stability: the optional byte fields (close reason, error
details) must not be present-but-empty, because a zero-length trailing
region decodes as an absent field; the error message must stay below
2^32 UTF-8 bytes so its 4-byte length field is exact (JS engines cap
string length far below this). -/
def optionalFieldsOk : Frame → Bool
  | .control _ op data => !(decide (op = 3) && decide (data = some []))
  | .error _ _ msg det =>
    !decide (det = some []) && decide ((utf8Encode msg).length < 4294967296)
  | _ => true

def validFrameAmendedB (f : Frame) : Bool :=
  validFrameB f && optionalFieldsOk f

theorem decodeFramePayload_message (payload fid : List Nat) :
    decodeFramePayload 1 payload fid =
      (if payload.length < 4 then .error (.protocolError ErrorCode.InvalidFrame)
       else if payload.length < 4 + readU32 payload then
         .error (.protocolError ErrorCode.InvalidFrame)
       else (asSubject (utf8DecodeReplace
           ((payload.drop 4).take (readU32 payload)))).bind
         (fun subject =>
           .ok (.message fid subject (payload.drop (4 + readU32 payload))))) := rfl

theorem decodeFramePayload_error (payload fid : List Nat) :
    decodeFramePayload 3 payload fid =
      (if payload.length < 6 then .error (.protocolError ErrorCode.InvalidFrame)
       else if payload.length < 6 + readU32 (payload.drop 2) then
         .error (.protocolError ErrorCode.InvalidFrame)
       else .ok (.error fid (readU16 payload)
         (utf8DecodeReplace ((payload.drop 6).take (readU32 (payload.drop 2))))
         (if payload.length > 6 + readU32 (payload.drop 2) then
            some (payload.drop (6 + readU32 (payload.drop 2)))
          else none))) := rfl

theorem frameRoundTrip_amended (f : Frame) (h : validFrameAmendedB f = true) :
    frameRoundTrip f = .ok f := by
  rw [validFrameAmendedB, Bool.and_eq_true] at h
  obtain ⟨hv, hx⟩ := h
  cases f with
  | control fid op data =>
    simp only [validFrameB, Bool.and_eq_true, decide_eq_true_eq] at hv
    obtain ⟨⟨⟨hf, hfb⟩, hop⟩, hdata⟩ := hv
    have hfid : asBytes fid = fid := asBytes_eq_self fid hfb
    rcases op with _ | _ | _ | _ | n
    · -- Handshake
      rw [if_pos rfl] at hdata
      match data, hdata with
      | some d, hdata =>
        simp only [Bool.and_eq_true, decide_eq_true_eq] at hdata
        obtain ⟨hd, hdb⟩ := hdata
        have hde : asBytes d = d := asBytes_eq_self d hdb
        have hp : encodeFramePayload (.control fid 0 (some d))
            = .ok (0 :: d) := by
          simp [encodeFramePayload, hd, toByte, hde]
        rw [frameRoundTrip, encodeFrame_ok _ (by simpa [Frame.fid] using hf) _ hp]
        simp only [Except.bind]
        rw [show Frame.kindByte (.control fid 0 (some d)) = 0 from rfl,
          show Frame.fid (.control fid 0 (some d)) = fid from rfl, hfid]
        rw [show asBytes (0 :: d) = 0 :: asBytes d from rfl, hde]
        rw [decodeFrame_header _ _ _ hf]
        rw [decodeFramePayload]
        simp [List.length_pos, List.length_eq_zero, hd]
      | none, hdata => simp at hdata
    · -- Ping
      rw [if_neg (by omega), if_neg (by omega)] at hdata
      simp only [decide_eq_true_eq] at hdata
      subst hdata
      have hp : encodeFramePayload (.control fid 1 none) = .ok [1] := by
        simp [encodeFramePayload, toByte]
      rw [frameRoundTrip, encodeFrame_ok _ (by simpa [Frame.fid] using hf) _ hp]
      simp only [Except.bind]
      rw [show Frame.kindByte (.control fid 1 none) = 0 from rfl,
        show Frame.fid (.control fid 1 none) = fid from rfl, hfid]
      rw [show asBytes [1] = [1] from rfl]
      rw [decodeFrame_header _ _ _ hf]
      rw [decodeFramePayload]
      simp
    · -- Pong
      rw [if_neg (by omega), if_neg (by omega)] at hdata
      simp only [decide_eq_true_eq] at hdata
      subst hdata
      have hp : encodeFramePayload (.control fid 2 none) = .ok [2] := by
        simp [encodeFramePayload, toByte]
      rw [frameRoundTrip, encodeFrame_ok _ (by simpa [Frame.fid] using hf) _ hp]
      simp only [Except.bind]
      rw [show Frame.kindByte (.control fid 2 none) = 0 from rfl,
        show Frame.fid (.control fid 2 none) = fid from rfl, hfid]
      rw [show asBytes [2] = [2] from rfl]
      rw [decodeFrame_header _ _ _ hf]
      rw [decodeFramePayload]
      simp
    · -- Close
      rw [if_neg (by omega), if_pos rfl] at hdata
      have hxe : data ≠ some [] := by
        intro he
        simp only [optionalFieldsOk, he] at hx
        simp at hx
      match data, hdata, hxe with
      | some d, hdata, hxe =>
        have hd : d ≠ [] := by
          intro he
          exact hxe (by rw [he])
        have hde : asBytes d = d := asBytes_eq_self d hdata
        have hp : encodeFramePayload (.control fid 3 (some d))
            = .ok (3 :: d) := by
          simp [encodeFramePayload, toByte, hde]
        rw [frameRoundTrip, encodeFrame_ok _ (by simpa [Frame.fid] using hf) _ hp]
        simp only [Except.bind]
        rw [show Frame.kindByte (.control fid 3 (some d)) = 0 from rfl,
          show Frame.fid (.control fid 3 (some d)) = fid from rfl, hfid]
        rw [show asBytes (3 :: d) = 3 :: asBytes d from rfl, hde]
        rw [decodeFrame_header _ _ _ hf]
        rw [decodeFramePayload]
        simp [List.length_pos, hd]
      | none, hdata, hxe =>
        have hp : encodeFramePayload (.control fid 3 none) = .ok [3] := by
          simp [encodeFramePayload, toByte]
        rw [frameRoundTrip, encodeFrame_ok _ (by simpa [Frame.fid] using hf) _ hp]
        simp only [Except.bind]
        rw [show Frame.kindByte (.control fid 3 none) = 0 from rfl,
          show Frame.fid (.control fid 3 none) = fid from rfl, hfid]
        rw [show asBytes [3] = [3] from rfl]
        rw [decodeFrame_header _ _ _ hf]
        rw [decodeFramePayload]
        simp
    · omega
  | ack fid aid =>
    simp only [validFrameB, Bool.and_eq_true, decide_eq_true_eq] at hv
    obtain ⟨⟨⟨hf, hfb⟩, ha⟩, hab⟩ := hv
    have hfid : asBytes fid = fid := asBytes_eq_self fid hfb
    have haid : asBytes aid = aid := asBytes_eq_self aid hab
    have hp : encodeFramePayload (.ack fid aid) = .ok aid := by
      simp [encodeFramePayload, haid]
    rw [frameRoundTrip, encodeFrame_ok _ (by simpa [Frame.fid] using hf) _ hp]
    simp only [Except.bind]
    rw [show Frame.kindByte (.ack fid aid) = 2 from rfl,
      show Frame.fid (.ack fid aid) = fid from rfl, hfid, haid]
    rw [decodeFrame_header _ _ _ hf]
    rw [decodeFramePayload]
    rw [if_neg (by omega), if_neg (by omega), if_pos rfl]
    rw [if_neg (by omega), if_neg (by omega)]
    rw [show aid.take 16 = aid from by rw [← ha, List.take_length]]
    rw [asFrameId, if_neg (by omega)]
    rfl
  | message fid subj data =>
    simp only [validFrameB, Bool.and_eq_true, decide_eq_true_eq] at hv
    obtain ⟨⟨⟨⟨hf, hfb⟩, hscal⟩, hspec⟩, hdb⟩ := hv
    have hfid : asBytes fid = fid := asBytes_eq_self fid hfb
    have hsb : allBytesB (utf8Encode subj) = true := utf8Encode_bytes subj hscal
    have hsbe : asBytes (utf8Encode subj) = utf8Encode subj := asBytes_eq_self _ hsb
    have hdata : asBytes data = data := asBytes_eq_self data hdb
    have hn : (utf8Encode subj).length ≤ 256 := by
      have := hspec
      simp only [subjectSpecB, Bool.and_eq_true, decide_eq_true_eq] at this
      exact this.1.2
    have hp : encodeFramePayload (.message fid subj data)
        = .ok (u32le (utf8Encode subj).length ++ utf8Encode subj ++ data) := by
      simp [encodeFramePayload, hsbe, hdata]
    rw [frameRoundTrip, encodeFrame_ok _ (by simpa [Frame.fid] using hf) _ hp]
    simp only [Except.bind]
    rw [show Frame.kindByte (.message fid subj data) = 1 from rfl,
      show Frame.fid (.message fid subj data) = fid from rfl, hfid]
    have hpb : asBytes (u32le (utf8Encode subj).length ++ utf8Encode subj ++ data)
        = u32le (utf8Encode subj).length ++ utf8Encode subj ++ data := by
      apply asBytes_eq_self
      simp [allBytesB_append, allBytesB_u32le, hsb, hdb]
    rw [hpb]
    rw [decodeFrame_header _ _ _ hf]
    rw [List.append_assoc, decodeFramePayload_message]
    have e1 : readU32 (u32le (utf8Encode subj).length ++ (utf8Encode subj ++ data))
        = (utf8Encode subj).length := by
      rw [readU32_u32le]
      omega
    have e2 : (u32le (utf8Encode subj).length ++ (utf8Encode subj ++ data)).length
        = 4 + ((utf8Encode subj).length + data.length) := by
      rw [u32le_append_length]
      simp
    have e3 : ((u32le (utf8Encode subj).length ++
        (utf8Encode subj ++ data)).drop 4).take (utf8Encode subj).length
        = utf8Encode subj := by
      rw [u32le_append_drop4, List.take_left]
    have e4 : (u32le (utf8Encode subj).length ++
        (utf8Encode subj ++ data)).drop (4 + (utf8Encode subj).length) = data := by
      rw [← List.drop_drop, u32le_append_drop4, List.drop_left]
    simp only [e1, e2, e3, e4, utf8_roundtrip subj hscal, asSubject_ok subj hspec]
    rw [if_neg (by omega), if_neg (by omega)]
    rfl
  | error fid code msg det =>
    simp only [validFrameB, Bool.and_eq_true, decide_eq_true_eq] at hv
    simp only [optionalFieldsOk, Bool.and_eq_true, Bool.not_eq_true',
      decide_eq_false_iff_not, decide_eq_true_eq] at hx
    obtain ⟨⟨⟨⟨hf, hfb⟩, hcode⟩, hscal⟩, hdet⟩ := hv
    obtain ⟨hxne, hm32⟩ := hx
    have hfid : asBytes fid = fid := asBytes_eq_self fid hfb
    have hmb : allBytesB (utf8Encode msg) = true := utf8Encode_bytes msg hscal
    have hmbe : asBytes (utf8Encode msg) = utf8Encode msg := asBytes_eq_self _ hmb
    have hdb : allBytesB (det.getD []) = true := by
      match det, hdet with
      | some d, hdet => exact hdet
      | none, _ => rfl
    have hdbe : asBytes (det.getD []) = det.getD [] := asBytes_eq_self _ hdb
    have hp : encodeFramePayload (.error fid code msg det)
        = .ok (u16le code ++ u32le (utf8Encode msg).length ++ utf8Encode msg ++
            det.getD []) := by
      simp [encodeFramePayload, hmbe, hdbe]
    rw [frameRoundTrip, encodeFrame_ok _ (by simpa [Frame.fid] using hf) _ hp]
    simp only [Except.bind]
    rw [show Frame.kindByte (.error fid code msg det) = 3 from rfl,
      show Frame.fid (.error fid code msg det) = fid from rfl, hfid]
    have hpb : asBytes (u16le code ++ u32le (utf8Encode msg).length ++
        utf8Encode msg ++ det.getD []) = u16le code ++
        u32le (utf8Encode msg).length ++ utf8Encode msg ++ det.getD [] := by
      apply asBytes_eq_self
      simp [allBytesB_append, allBytesB_u32le, allBytesB_u16le, hmb, hdb]
    rw [hpb]
    rw [decodeFrame_header _ _ _ hf]
    rw [List.append_assoc, List.append_assoc, decodeFramePayload_error]
    have e1 : readU16 (u16le code ++ (u32le (utf8Encode msg).length ++
        (utf8Encode msg ++ det.getD []))) = code := by
      rw [readU16_u16le]
      omega
    have e2 : readU32 ((u16le code ++ (u32le (utf8Encode msg).length ++
        (utf8Encode msg ++ det.getD []))).drop 2) = (utf8Encode msg).length := by
      rw [u16le_append_drop2, readU32_u32le]
      omega
    have hlen : (u16le code ++ (u32le (utf8Encode msg).length ++
        (utf8Encode msg ++ det.getD []))).length
        = 6 + ((utf8Encode msg).length + (det.getD []).length) := by
      rw [u16le_append_length, u32le_append_length]
      simp
      omega
    have hdrop6 : (u16le code ++ (u32le (utf8Encode msg).length ++
        (utf8Encode msg ++ det.getD []))).drop 6
        = utf8Encode msg ++ det.getD [] := by
      rw [show (6 : Nat) = 2 + 4 from rfl, ← List.drop_drop,
        u16le_append_drop2, u32le_append_drop4]
    have e3 : ((u16le code ++ (u32le (utf8Encode msg).length ++
        (utf8Encode msg ++ det.getD []))).drop 6).take (utf8Encode msg).length
        = utf8Encode msg := by
      rw [hdrop6, List.take_left]
    have e4 : (u16le code ++ (u32le (utf8Encode msg).length ++
        (utf8Encode msg ++ det.getD []))).drop (6 + (utf8Encode msg).length)
        = det.getD [] := by
      rw [← List.drop_drop, hdrop6, List.drop_left]
    simp only [e1, e2, e3, e4, hlen, utf8_roundtrip msg hscal]
    match det, hxne with
    | some d, hxne =>
      have hd : d ≠ [] := by
        intro he
        exact hxne (by rw [he])
      have hdl := List.length_pos.mpr hd
      simp only [Option.getD_some] at *
      rw [if_neg (by omega), if_neg (by omega), if_pos (by omega)]
    | none, hxne =>
      simp only [Option.getD_none, List.length_nil] at *
      rw [if_neg (by omega), if_neg (by omega), if_neg (by omega)]
end Sideband

namespace Sideband

theorem tail_eq_nil_iff (l : List Nat) : l.tail = [] ↔ l.length ≤ 1 := by
  constructor
  · intro h
    have := congrArg List.length h
    simp [List.length_tail] at this
    omega
  · intro h
    match l, h with
    | [], _ => rfl
    | [a], _ => rfl

theorem decodeFramePayload_control_shape (payload fid : List Nat) :
    decodeFramePayload 0 payload fid =
      (if payload.length < 1 then .error (.protocolError ErrorCode.InvalidFrame)
       else if payload.getD 0 0 = 0 then
         (match (if payload.length > 1 then some (payload.drop 1) else none) with
          | some d =>
            if d.length = 0 then .error (.protocolError ErrorCode.InvalidFrame)
            else .ok (.control fid 0 (some d))
          | none => .error (.protocolError ErrorCode.InvalidFrame))
       else if payload.getD 0 0 = 1 then
         (match (if payload.length > 1 then some (payload.drop 1) else none) with
          | some _ => .error (.protocolError ErrorCode.InvalidFrame)
          | none => .ok (.control fid 1 none))
       else if payload.getD 0 0 = 2 then
         (match (if payload.length > 1 then some (payload.drop 1) else none) with
          | some _ => .error (.protocolError ErrorCode.InvalidFrame)
          | none => .ok (.control fid 2 none))
       else if payload.getD 0 0 = 3 then
         .ok (.control fid 3
           (if payload.length > 1 then some (payload.drop 1) else none))
       else .error (.protocolError ErrorCode.InvalidFrame)) := rfl

theorem decodeFramePayload_ack_shape (payload fid : List Nat) :
    decodeFramePayload 2 payload fid =
      (if payload.length < 16 then .error (.protocolError ErrorCode.InvalidFrame)
       else if payload.length > 16 then .error (.protocolError ErrorCode.InvalidFrame)
       else (asFrameId (payload.take 16)).bind
         (fun a => .ok (.ack fid a))) := rfl

theorem decodeFramePayload_other_shape (k : Nat) (payload fid : List Nat)
    (h0 : k ≠ 0) (h1 : k ≠ 1) (h2 : k ≠ 2) (h3 : k ≠ 3) :
    decodeFramePayload k payload fid
      = .error (.protocolError ErrorCode.InvalidFrame) := by
  rw [decodeFramePayload, if_neg h0, if_neg h1, if_neg h2, if_neg h3]

theorem decodeFramePayload_close_no_empty (k : Nat) (payload fid i : List Nat)
    (h : decodeFramePayload k payload fid = .ok (.control i 3 (some []))) :
    False := by
  by_cases h0 : k = 0
  · subst h0
    rw [decodeFramePayload_control_shape] at h
    split_ifs at h <;> try simp at h
    all_goals try exact Except.noConfusion h
    all_goals try (split at h <;> simp_all)
    all_goals
      obtain ⟨-, hdd⟩ := h
      rw [tail_eq_nil_iff] at hdd
      omega
  · by_cases h1 : k = 1
    · subst h1
      rw [decodeFramePayload_message] at h
      split_ifs at h <;> try simp at h
      cases hs : asSubject (utf8DecodeReplace
          ((payload.drop 4).take (readU32 payload))) <;>
        rw [hs] at h <;> simp [bind, Except.bind] at h
    · by_cases h2 : k = 2
      · subst h2
        rw [decodeFramePayload_ack_shape] at h
        split_ifs at h <;> try simp at h
        rw [asFrameId] at h
        split_ifs at h <;> simp [bind, Except.bind] at h
      · by_cases h3 : k = 3
        · subst h3
          rw [decodeFramePayload_error] at h
          split_ifs at h <;> simp at h
        · rw [decodeFramePayload_other_shape k payload fid h0 h1 h2 h3] at h
          simp at h

theorem decodeFramePayload_error_no_empty (k : Nat) (payload fid i m : List Nat)
    (c : Nat) (h : decodeFramePayload k payload fid = .ok (.error i c m (some []))) :
    False := by
  by_cases h0 : k = 0
  · subst h0
    rw [decodeFramePayload_control_shape] at h
    split_ifs at h <;> try simp at h
    all_goals try exact Except.noConfusion h
    all_goals (split at h <;> simp_all)
  · by_cases h1 : k = 1
    · subst h1
      rw [decodeFramePayload_message] at h
      split_ifs at h <;> try simp at h
      cases hs : asSubject (utf8DecodeReplace
          ((payload.drop 4).take (readU32 payload))) <;>
        rw [hs] at h <;> simp [bind, Except.bind] at h
    · by_cases h2 : k = 2
      · subst h2
        rw [decodeFramePayload_ack_shape] at h
        split_ifs at h <;> try simp at h
        rw [asFrameId] at h
        split_ifs at h <;> simp [bind, Except.bind] at h
      · by_cases h3 : k = 3
        · subst h3
          rw [decodeFramePayload_error] at h
          split_ifs at h <;> try simp at h
          all_goals try exact Except.noConfusion h
          all_goals
            obtain ⟨-, -, -, hdd⟩ := h
            omega
        · rw [decodeFramePayload_other_shape k payload fid h0 h1 h2 h3] at h
          simp at h

end Sideband

namespace Sideband

theorem decodeFrame_ok_factor (buf : List Nat) (f : Frame)
    (h : decodeFrame buf = .ok f) :
    ∃ k payload fid, decodeFramePayload k payload fid = .ok f := by
  rw [decodeFrame, asFrameId] at h
  dsimp only at h
  split_ifs at h <;>
    first
      | exact Except.noConfusion h
      | (simp only [bind, Except.bind] at h
         first
           | exact Except.noConfusion h
           | exact ⟨_, _, _, h⟩)

theorem closeEmpty_normalizes (fid : List Nat) (hf : fid.length = 16)
    (hb : allBytesB fid = true) :
    frameRoundTrip (.control fid 3 (some [])) = .ok (.control fid 3 none) := by
  have hfid : asBytes fid = fid := asBytes_eq_self fid hb
  have hp : encodeFramePayload (.control fid 3 (some [])) = .ok [3] := by
    simp [encodeFramePayload, toByte, asBytes]
  rw [frameRoundTrip, encodeFrame_ok _ (by simpa [Frame.fid] using hf) _ hp]
  simp only [Except.bind]
  rw [show Frame.kindByte (.control fid 3 (some [])) = 0 from rfl,
    show Frame.fid (.control fid 3 (some [])) = fid from rfl, hfid]
  rw [show asBytes [3] = [3] from rfl]
  rw [decodeFrame_header _ _ _ hf]
  rw [decodeFramePayload]
  simp

theorem errorEmptyDetails_normalizes (fid : List Nat) (code : Nat)
    (msg : List Nat) (hf : fid.length = 16) (hb : allBytesB fid = true)
    (hcode : code < 65536) (hscal : msg.all validScalarB = true)
    (hm32 : (utf8Encode msg).length < 4294967296) :
    frameRoundTrip (.error fid code msg (some []))
      = .ok (.error fid code msg none) := by
  have hfid : asBytes fid = fid := asBytes_eq_self fid hb
  have hmb : allBytesB (utf8Encode msg) = true := utf8Encode_bytes msg hscal
  have hmbe : asBytes (utf8Encode msg) = utf8Encode msg := asBytes_eq_self _ hmb
  have hp : encodeFramePayload (.error fid code msg (some []))
      = .ok (u16le code ++ u32le (utf8Encode msg).length ++ utf8Encode msg) := by
    simp only [encodeFramePayload, Option.getD_some,
      show asBytes ([] : List Nat) = [] from rfl, List.append_nil, hmbe]
  rw [frameRoundTrip, encodeFrame_ok _ (by simpa [Frame.fid] using hf) _ hp]
  simp only [Except.bind]
  rw [show Frame.kindByte (.error fid code msg (some [])) = 3 from rfl,
    show Frame.fid (.error fid code msg (some [])) = fid from rfl, hfid]
  have hpb : asBytes (u16le code ++ u32le (utf8Encode msg).length ++ utf8Encode msg)
      = u16le code ++ u32le (utf8Encode msg).length ++ utf8Encode msg := by
    apply asBytes_eq_self
    simp [allBytesB_append, allBytesB_u32le, allBytesB_u16le, hmb]
  rw [hpb]
  rw [decodeFrame_header _ _ _ hf]
  rw [List.append_assoc, decodeFramePayload_error]
  have e1 : readU16 (u16le code ++ (u32le (utf8Encode msg).length ++
      utf8Encode msg)) = code := by
    rw [readU16_u16le]
    omega
  have e2 : readU32 ((u16le code ++ (u32le (utf8Encode msg).length ++
      utf8Encode msg)).drop 2) = (utf8Encode msg).length := by
    rw [u16le_append_drop2, readU32_u32le]
    omega
  have hlen : (u16le code ++ (u32le (utf8Encode msg).length ++
      utf8Encode msg)).length = 6 + (utf8Encode msg).length := by
    rw [u16le_append_length, u32le_append_length]
    omega
  have e3 : ((u16le code ++ (u32le (utf8Encode msg).length ++
      utf8Encode msg)).drop 6).take (utf8Encode msg).length
      = utf8Encode msg := by
    rw [show (6 : Nat) = 2 + 4 from rfl, ← List.drop_drop,
      u16le_append_drop2, u32le_append_drop4, List.take_length]
  simp only [e1, e2, e3, hlen, utf8_roundtrip msg hscal]
  rw [if_neg (by omega), if_neg (by omega), if_neg (by omega)]

end Sideband

deriving instance DecidableEq for Except

namespace Sideband

/-- Whether an embedded JS computation returned normally. -/
def exceptIsOk {α : Type} (e : Except CodecErr α) : Bool :=
  match e with
  | .ok _ => true
  | .error _ => false

theorem encodeFrame_error_iff (f : Frame) (hf : f.fid.length = 16)
    (e : CodecErr) :
    encodeFrame f = .error e ↔ encodeFramePayload f = .error e := by
  cases hp : encodeFramePayload f with
  | error e2 =>
    rw [encodeFrame, hp]
    simp [bind, Except.bind]
  | ok p =>
    rw [encodeFrame_ok f hf p hp]
    simp [hp]

theorem encodeFramePayload_control_error_iff (fid : List Nat) (op : Nat)
    (data : Option (List Nat)) :
    encodeFramePayload (.control fid op data)
        = .error (.protocolError ErrorCode.InvalidFrame) ↔
      ((op = 0 ∧ (data = none ∨ data = some [])) ∨
       ((op = 1 ∨ op = 2) ∧ data ≠ none) ∨ 3 < op) := by
  show (if op = 0 then
      (match data with
       | some d =>
         if d.length = 0 then
           Except.error (CodecErr.protocolError ErrorCode.InvalidFrame)
         else Except.ok (toByte op :: asBytes d)
       | none => Except.error (CodecErr.protocolError ErrorCode.InvalidFrame))
    else if op = 1 ∨ op = 2 then
      (match data with
       | some _ => Except.error (CodecErr.protocolError ErrorCode.InvalidFrame)
       | none => Except.ok [toByte op])
    else if op = 3 then
      (match data with
       | some d => Except.ok (toByte op :: asBytes d)
       | none => Except.ok [toByte op])
    else Except.error (CodecErr.protocolError ErrorCode.InvalidFrame))
      = .error (.protocolError ErrorCode.InvalidFrame) ↔ _
  by_cases h0 : op = 0
  · subst h0
    rw [if_pos rfl]
    cases data with
    | none => simp
    | some d =>
      cases d with
      | nil => simp
      | cons b bs => simp
  · rw [if_neg h0]
    by_cases h1 : op = 1 ∨ op = 2
    · rw [if_pos h1]
      cases data with
      | none => simp [h0, h1]; omega
      | some d => simp [h0, h1]
    · rw [if_neg h1]
      by_cases h3 : op = 3
      · subst h3
        rw [if_pos rfl]
        cases data <;> simp
      · rw [if_neg h3]
        simp [h0, h1, h3]
        omega

end Sideband

namespace Sideband

/-- C1 counterexample: the Close control frame with a present-but-empty
reason array satisfies every per-variant invariant the claim lists
(16-byte identifier, close data optional), yet
`decodeFrame(encodeFrame(F))` returns the frame with the field absent,
not equal to `F`. -/
theorem C1_frame_roundtrip_counterexample :
    validFrameB (.control (List.replicate 16 0) 3 (some [])) = true ∧
      frameRoundTrip (.control (List.replicate 16 0) 3 (some []))
        ≠ .ok (.control (List.replicate 16 0) 3 (some [])) := by
  decide

/-- C1 (amended): for every valid frame whose optional byte fields
(close reason, error details) are not present-but-empty and whose error
message is below 2^32 UTF-8 bytes, `decodeFrame(encodeFrame(F))`
returns `F` structurally: same kind, identifier byte-for-byte, and all
payload fields. -/
theorem C1_frame_roundtrip (f : Frame) (h : validFrameAmendedB f = true) :
    frameRoundTrip f = .ok f :=
  frameRoundTrip_amended f h

/-- Witness for C1: a concrete message frame round-trips. -/
theorem C1_frame_roundtrip_witness :
    frameRoundTrip (.message (List.replicate 16 7) (strChars "rpc/echo")
        (strChars "hello"))
      = .ok (.message (List.replicate 16 7) (strChars "rpc/echo")
        (strChars "hello")) :=
  C1_frame_roundtrip _ (by decide)

/-- C2: `asSubject` succeeds and returns the string verbatim exactly on
strings of 1..256 UTF-8 bytes without null bytes starting with one of
the four reserved namespaces, and fails with
`ProtocolError(ProtocolViolation)` on every other string. -/
theorem C2_subject_validator (s : List Nat) :
    (subjectSpecB s = true → asSubject s = .ok s) ∧
    (subjectSpecB s = false →
      asSubject s = .error (.protocolError ErrorCode.ProtocolViolation)) :=
  ⟨asSubject_ok s, asSubject_err s⟩

/-- Witness for C2: one conforming and one violating subject. -/
theorem C2_subject_validator_witness :
    asSubject (strChars "rpc/echo") = .ok (strChars "rpc/echo") ∧
    asSubject (strChars "foo/bar")
      = .error (.protocolError ErrorCode.ProtocolViolation) :=
  ⟨(C2_subject_validator (strChars "rpc/echo")).1 (by decide),
   (C2_subject_validator (strChars "foo/bar")).2 (by decide)⟩

/-- C5: hex round-trips of frame identifiers: `frameIdToHex` produces
exactly 32 lowercase hex characters and `frameIdFromHex` inverts it;
`frameIdFromHex` followed by `frameIdToHex` restores every conforming
32-character lowercase hex string; every other string is rejected (a
plain `Error`, here `jsError`). -/
theorem C5_frameid_hex_roundtrip (id h : List Nat) :
    (id.length = 16 → allBytesB id = true →
      frameIdFromHex (frameIdToHex id) = .ok id ∧
      (frameIdToHex id).length = 32 ∧
      (frameIdToHex id).all isLowerHexDigit = true) ∧
    (h.length = 32 → h.all isLowerHexDigit = true →
      (frameIdFromHex h).map frameIdToHex = .ok h) ∧
    (¬(h.length = 32 ∧ h.all isLowerHexDigit = true) →
      frameIdFromHex h = .error .jsError) := by
  refine ⟨fun h16 hb => ?_, fun h32 hd => ?_, fun hbad => ?_⟩
  · have hlen : (frameIdToHex id).length = 32 := by
      rw [frameIdToHex, bytesToHex_length, h16]
    have hdig : (frameIdToHex id).all isLowerHexDigit = true :=
      bytesToHex_hexDigits id hb
    refine ⟨?_, hlen, hdig⟩
    rw [frameIdFromHex, if_neg (by simp [hlen, hdig])]
    rw [frameIdToHex, hexPairsToBytes_bytesToHex id hb]
    rw [asFrameId, if_neg (by simp [h16])]
  · have hplen : (hexPairsToBytes h).length = 16 := by
      rw [hexPairsToBytes_length h (by omega), h32]
    rw [frameIdFromHex, if_neg (by simp [h32, hd])]
    rw [asFrameId, if_neg (by simp [hplen])]
    simp only [Except.map]
    rw [frameIdToHex, bytesToHex_hexPairsToBytes h hd (by omega)]
  · rw [frameIdFromHex, if_pos]
    rcases Decidable.not_and_iff_or_not.mp hbad with hb | hb
    · exact Or.inl hb
    · exact Or.inr (by simpa using hb)

/-- Witness for C5: a concrete identifier and hex string. -/
theorem C5_frameid_hex_roundtrip_witness :
    frameIdFromHex (frameIdToHex (List.replicate 16 255))
        = .ok (List.replicate 16 255) ∧
    (frameIdFromHex (strChars "00112233445566778899aabbccddeeff")).map
        frameIdToHex = .ok (strChars "00112233445566778899aabbccddeeff") ∧
    frameIdFromHex (strChars "00112233445566778899AABBCCDDEEFF")
        = .error .jsError :=
  ⟨((C5_frameid_hex_roundtrip (List.replicate 16 255) []).1 (by decide)
      (by decide)).1,
   (C5_frameid_hex_roundtrip []
      (strChars "00112233445566778899aabbccddeeff")).2.1 (by decide) (by decide),
   (C5_frameid_hex_roundtrip []
      (strChars "00112233445566778899AABBCCDDEEFF")).2.2 (by decide)⟩

/-- C10: a zero-length optional trailing region (close reason, error
details) always decodes as an absent field, never as an empty byte
array, and consequently frames carrying a present-but-empty optional
field re-decode with the field absent (not round-trip stable). -/
theorem C10_empty_optional_fields (buf fid msg : List Nat) (code : Nat) :
    (∀ i, decodeFrame buf ≠ .ok (.control i 3 (some []))) ∧
    (∀ i c m, decodeFrame buf ≠ .ok (.error i c m (some []))) ∧
    (fid.length = 16 → allBytesB fid = true →
      frameRoundTrip (.control fid 3 (some [])) = .ok (.control fid 3 none)) ∧
    (fid.length = 16 → allBytesB fid = true → code < 65536 →
      msg.all validScalarB = true → (utf8Encode msg).length < 4294967296 →
      frameRoundTrip (.error fid code msg (some []))
        = .ok (.error fid code msg none)) := by
  refine ⟨fun i h => ?_, fun i c m h => ?_,
    fun h1 h2 => closeEmpty_normalizes fid h1 h2,
    fun h1 h2 h3 h4 h5 => errorEmptyDetails_normalizes fid code msg h1 h2 h3 h4 h5⟩
  · obtain ⟨k, p, j, hp⟩ := decodeFrame_ok_factor buf _ h
    exact decodeFramePayload_close_no_empty k p j i hp
  · obtain ⟨k, p, j, hp⟩ := decodeFrame_ok_factor buf _ h
    exact decodeFramePayload_error_no_empty k p j i m c hp

/-- Witness for C10: concrete close and error frames with empty optional
fields re-decode with the field absent. -/
theorem C10_empty_optional_fields_witness :
    frameRoundTrip (.control (List.replicate 16 1) 3 (some []))
        = .ok (.control (List.replicate 16 1) 3 none) ∧
    frameRoundTrip (.error (List.replicate 16 1) 2000 (strChars "oops") (some []))
        = .ok (.error (List.replicate 16 1) 2000 (strChars "oops") none) :=
  ⟨(C10_empty_optional_fields [] (List.replicate 16 1) [] 0).2.2.1
      (by decide) (by decide),
   (C10_empty_optional_fields [] (List.replicate 16 1) (strChars "oops")
      2000).2.2.2 (by decide) (by decide) (by decide) (by decide) (by decide)⟩

end Sideband

namespace Sideband

/-- C3 counterexample: an error-frame buffer whose message field is the
single byte 0xFF — not valid UTF-8 — decodes successfully: the default
`TextDecoder` is non-fatal and yields U+FFFD, so `decodeFrame` does not
fail with InvalidFrame. -/
theorem C3_invalid_utf8_counterexample :
    isUtf8B [255] = false ∧
    decodeFrame ((3 : Nat) :: 0 :: (List.replicate 16 0 ++
        ([208, 7] ++ [1, 0, 0, 0] ++ [255])))
      = .ok (.error (List.replicate 16 0) 2000 [65533] none) := by
  decide

/-- C3 (amended): invalid UTF-8 in a string field never yields
InvalidFrame. String fields are decoded with U+FFFD replacement: an
error frame decodes successfully whatever its message bytes are, and a
message frame fails only when the replacement-decoded subject fails the
subject validator — with ProtocolViolation, not InvalidFrame. -/
theorem C3_invalid_utf8_replaced (fid msgBytes sb d : List Nat) (c : Nat) :
    (fid.length = 16 → msgBytes.length < 4294967296 →
      decodeFrame ((3 : Nat) :: 0 :: (fid ++ (u16le c ++
          u32le msgBytes.length ++ msgBytes)))
        = .ok (.error fid (c % 65536) (utf8DecodeReplace msgBytes) none)) ∧
    (fid.length = 16 → sb.length < 4294967296 →
      decodeFrame ((1 : Nat) :: 0 :: (fid ++ (u32le sb.length ++ sb ++ d)))
        = (asSubject (utf8DecodeReplace sb)).bind
            (fun subj => .ok (.message fid subj d))) := by
  constructor
  · intro hf hm
    rw [decodeFrame_header _ _ _ hf]
    rw [List.append_assoc, decodeFramePayload_error]
    have e1 : readU16 (u16le c ++ (u32le msgBytes.length ++ msgBytes))
        = c % 65536 := readU16_u16le c _
    have e2 : readU32 ((u16le c ++ (u32le msgBytes.length ++ msgBytes)).drop 2)
        = msgBytes.length := by
      rw [u16le_append_drop2, readU32_u32le]
      omega
    have hlen : (u16le c ++ (u32le msgBytes.length ++ msgBytes)).length
        = 6 + msgBytes.length := by
      rw [u16le_append_length, u32le_append_length]
      omega
    have e3 : ((u16le c ++ (u32le msgBytes.length ++ msgBytes)).drop 6).take
        msgBytes.length = msgBytes := by
      rw [show (6 : Nat) = 2 + 4 from rfl, ← List.drop_drop,
        u16le_append_drop2, u32le_append_drop4, List.take_length]
    simp only [e1, e2, e3, hlen]
    rw [if_neg (by omega), if_neg (by omega), if_neg (by omega)]
  · intro hf hs
    rw [decodeFrame_header _ _ _ hf]
    rw [List.append_assoc, decodeFramePayload_message]
    have e1 : readU32 (u32le sb.length ++ (sb ++ d)) = sb.length := by
      rw [readU32_u32le]
      omega
    have e2 : (u32le sb.length ++ (sb ++ d)).length
        = 4 + (sb.length + d.length) := by
      rw [u32le_append_length]
      simp
    have e3 : ((u32le sb.length ++ (sb ++ d)).drop 4).take sb.length = sb := by
      rw [u32le_append_drop4, List.take_left]
    have e4 : (u32le sb.length ++ (sb ++ d)).drop (4 + sb.length) = d := by
      rw [← List.drop_drop, u32le_append_drop4, List.drop_left]
    simp only [e1, e2, e3, e4]
    rw [if_neg (by omega), if_neg (by omega)]

/-- Witness for C3 (amended): the invalid-UTF-8 error message [0xFF]
decodes with replacement, and an invalid-UTF-8 subject surfaces as the
subject validator result. -/
theorem C3_invalid_utf8_replaced_witness :
    decodeFrame ((3 : Nat) :: 0 :: (List.replicate 16 2 ++ ([208, 7] ++
        [1, 0, 0, 0] ++ [255])))
      = .ok (.error (List.replicate 16 2) 2000 [65533] none) := by
  have := (C3_invalid_utf8_replaced (List.replicate 16 2) [255] [] [] 2000).1
    (by decide) (by decide)
  rw [show u16le 2000 = [208, 7] from by decide,
    show u32le ([255] : List Nat).length = [1, 0, 0, 0] from by decide] at this
  simpa using this

/-- C4 counterexample: `encodeFrame` does not revalidate the subject and
does not check the frame identifier length: a message frame whose
subject lacks a reserved namespace encodes successfully, as does a ping
frame whose identifier is only 15 bytes. -/
theorem C4_encode_validation_counterexample :
    subjectSpecB (strChars "bad") = false ∧
    exceptIsOk (encodeFrame (.message (List.replicate 16 0)
      (strChars "bad") [])) = true ∧
    exceptIsOk (encodeFrame (.control (List.replicate 15 0) 1 none)) = true := by
  decide

/-- C4 (amended): before any bytes are produced `encodeFrame` enforces
only the control-frame data invariants — handshake data present and
non-empty, ping/pong data absent, control op known — failing with
InvalidFrame exactly on their violation; message, ack and error frames
(with a 16-byte identifier) always encode, with no subject revalidation
and no identifier length check. -/
theorem C4_encode_enforces_control_invariants (fid subj d aid msg : List Nat)
    (op code : Nat) (data det : Option (List Nat)) :
    (fid.length = 16 →
      (encodeFrame (.control fid op data)
          = .error (.protocolError ErrorCode.InvalidFrame) ↔
        ((op = 0 ∧ (data = none ∨ data = some [])) ∨
         ((op = 1 ∨ op = 2) ∧ data ≠ none) ∨ 3 < op))) ∧
    (fid.length = 16 →
      exceptIsOk (encodeFrame (.message fid subj d)) = true ∧
      exceptIsOk (encodeFrame (.ack fid aid)) = true ∧
      exceptIsOk (encodeFrame (.error fid code msg det)) = true) := by
  constructor
  · intro hf
    rw [encodeFrame_error_iff _ (by simpa [Frame.fid] using hf)]
    exact encodeFramePayload_control_error_iff fid op data
  · intro hf
    refine ⟨?_, ?_, ?_⟩
    · rw [encodeFrame_ok _ (by simpa [Frame.fid] using hf) _ (by
        rw [encodeFramePayload])]
      rfl
    · rw [encodeFrame_ok _ (by simpa [Frame.fid] using hf) _ (by
        rw [encodeFramePayload])]
      rfl
    · rw [encodeFrame_ok _ (by simpa [Frame.fid] using hf) _ (by
        rw [encodeFramePayload])]
      rfl

/-- Witness for C4 (amended): ping with data is rejected with
InvalidFrame; a concrete message frame encodes. -/
theorem C4_encode_enforces_control_invariants_witness :
    encodeFrame (.control (List.replicate 16 0) 1 (some [5]))
        = .error (.protocolError ErrorCode.InvalidFrame) ∧
    exceptIsOk (encodeFrame (.message (List.replicate 16 0)
      (strChars "rpc/x") [1, 2])) = true :=
  ⟨((C4_encode_enforces_control_invariants (List.replicate 16 0) [] [] [] []
      1 0 (some [5]) none).1 (by decide)).mpr (by decide),
   ((C4_encode_enforces_control_invariants (List.replicate 16 0)
      (strChars "rpc/x") [1, 2] [] [] 0 0 none none).2 (by decide)).1⟩

end Sideband

namespace Sideband

/-- JSON values as produced by `JSON.parse` (object keys distinct, last
duplicate kept by the parser). -/
inductive Json
  | null
  | bool (b : Bool)
  | num (n : Int)
  | str (s : String)
  | arr (elems : List Json)
  | obj (fields : List (String × Json))

/-- Property lookup on a parsed object. -/
def lookupField : List (String × Json) → String → Option Json
  | [], _ => none
  | (k, v) :: r, key => if k = key then some v else lookupField r key

/-- JS property access `data.key` on a `JSON.parse` result: `undefined`
(`none`) whenever the value is not an object with that key. -/
def Json.getField : Json → String → Option Json
  | .obj fields, key => lookupField fields key
  | _, _ => none

/-- Whether `typeof data.key === "string"` holds. -/
def Json.isStrField (j : Json) (k : String) : Bool :=
  match j.getField k with
  | some (.str _) => true
  | _ => false

/-- `PROTOCOL_NAME` from constants.ts. -/
def PROTOCOL_NAME : String := "sideband"

/-- `PROTOCOL_VERSION` from constants.ts. -/
def PROTOCOL_VERSION : String := "1"

/-- `decodeHandshake` from the protocol package, modelled on the result
of `JSON.parse` over the UTF-8 text of the payload: `none` stands for
bytes that are not valid JSON (the thrown parse error is caught and
wrapped as InvalidFrame). Field validations throw plain errors, also
wrapped as InvalidFrame; the protocol and version checks throw
`ProtocolError(UnsupportedVersion)`, which is re-thrown unchanged. On
success the parsed object is returned as-is (so `caps` and `metadata`
pass through unchanged). -/
def decodeHandshake (parsed : Option Json) : Except CodecErr Json :=
  match parsed with
  | none => .error (.protocolError ErrorCode.InvalidFrame)
  | some data =>
    match data.getField "protocol" with
    | some (.str protocol) =>
      (match data.getField "version" with
       | some (.str version) =>
         (match data.getField "peerId" with
          | some (.str _) =>
            if protocol ≠ PROTOCOL_NAME then
              .error (.protocolError ErrorCode.UnsupportedVersion)
            else if version ≠ PROTOCOL_VERSION then
              .error (.protocolError ErrorCode.UnsupportedVersion)
            else .ok data
          | _ => .error (.protocolError ErrorCode.InvalidFrame))
       | _ => .error (.protocolError ErrorCode.InvalidFrame))
    | _ => .error (.protocolError ErrorCode.InvalidFrame)

/-- C9: handshake decoding — unparseable bytes or a missing/non-string
`protocol`, `version` or `peerId` field yield InvalidFrame; given the
three string fields, the result is UnsupportedVersion exactly when
`protocol` differs from "sideband" or `version` differs from "1" (in
particular for the payload with version "2"), and on success the parsed
object (hence `caps` and `metadata`) passes through unchanged. -/
theorem C9_handshake_decode (j : Json) (p v pid : String) :
    (decodeHandshake none = .error (.protocolError ErrorCode.InvalidFrame)) ∧
    ((j.isStrField "protocol" = false ∨ j.isStrField "version" = false ∨
        j.isStrField "peerId" = false) →
      decodeHandshake (some j) = .error (.protocolError ErrorCode.InvalidFrame)) ∧
    (j.getField "protocol" = some (.str p) →
     j.getField "version" = some (.str v) →
     j.getField "peerId" = some (.str pid) →
      (decodeHandshake (some j)
          = .error (.protocolError ErrorCode.UnsupportedVersion) ↔
        (p ≠ "sideband" ∨ v ≠ "1")) ∧
      (p = "sideband" → v = "1" → decodeHandshake (some j) = .ok j)) ∧
    (decodeHandshake (some (.obj [("protocol", .str "sideband"),
        ("version", .str "2"), ("peerId", .str "p1")]))
      = .error (.protocolError ErrorCode.UnsupportedVersion)) := by
  refine ⟨rfl, ?_, ?_, by rfl⟩
  · intro hbad
    rw [decodeHandshake]
    split <;> try rfl
    split <;> try rfl
    split <;> try rfl
    rcases hbad with hb | hb | hb <;> rw [Json.isStrField] at hb <;> simp_all
  · intro hp hv hid
    rw [decodeHandshake, hp, hv, hid]
    dsimp only
    constructor
    · by_cases h1 : p = PROTOCOL_NAME
      · rw [if_neg (by simp [h1])]
        by_cases h2 : v = PROTOCOL_VERSION
        · rw [if_neg (by simp [h2])]
          simp [PROTOCOL_NAME, PROTOCOL_VERSION] at h1 h2
          simp [h1, h2]
        · rw [if_pos h2]
          simp [PROTOCOL_VERSION] at h2
          simp [h2]
      · rw [if_pos h1]
        simp [PROTOCOL_NAME] at h1
        simp [h1]
    · intro h1 h2
      rw [if_neg (by simp [h1, PROTOCOL_NAME]), if_neg (by simp [h2, PROTOCOL_VERSION])]

/-- Witness for C9: a good payload passes through; a missing peerId is
InvalidFrame. -/
theorem C9_handshake_decode_witness :
    decodeHandshake (some (.obj [("protocol", .str "sideband"),
        ("version", .str "1"), ("peerId", .str "p1")]))
      = .ok (.obj [("protocol", .str "sideband"),
        ("version", .str "1"), ("peerId", .str "p1")]) ∧
    decodeHandshake (some (.obj [("protocol", .str "sideband"),
        ("version", .str "1")]))
      = .error (.protocolError ErrorCode.InvalidFrame) :=
  ⟨((C9_handshake_decode (.obj [("protocol", .str "sideband"),
        ("version", .str "1"), ("peerId", .str "p1")])
      "sideband" "1" "p1").2.2.1 rfl rfl rfl).2 rfl rfl,
   (C9_handshake_decode (.obj [("protocol", .str "sideband"),
        ("version", .str "1")]) "" "" "").2.1 (Or.inr (Or.inr rfl))⟩

end Sideband

namespace Sideband

/-- Membership in the character class `[0-9a-fA-F]` (the `/i` flag of
the structural cid regex). -/
def isHexCharCI (c : Nat) : Bool :=
  isLowerHexDigit c || (decide (65 ≤ c) && decide (c ≤ 70))

/-- `isValidHexFrameId` from rpc/codec.ts: a string matching the
case-insensitive form `[0-9a-f]{32}` under the `i` flag. -/
def isValidHexFrameId : Option Json → Bool
  | some (.str s) => decide (s.length = 32) && (strChars s).all isHexCharCI
  | _ => false

/-- `typeof obj === "object" && obj !== null` on a parse result. -/
def objLikeB : Json → Bool
  | .arr _ => true
  | .obj _ => true
  | _ => false

/-- `typeof field === "number"`. -/
def Json.isNumField (j : Json) (k : String) : Bool :=
  match j.getField k with
  | some (.num _) => true
  | _ => false

/-- `validateEnvelopeStructure` from rpc/codec.ts (the variant with cid
validation): discriminant in {r,R,E,N}; r/R/E require a cid matching
the case-insensitive 32-hex form; r requires string `m`; E requires
numeric `code` and string `message`; N requires string `e`. Every
failure is `ProtocolError(ProtocolViolation)`. -/
def validateEnvelopeStructure (obj : Json) : Except CodecErr Unit :=
  if objLikeB obj = false then .error (.protocolError ErrorCode.ProtocolViolation)
  else
    match obj.getField "t" with
    | some (.str t) =>
      if t = "r" ∨ t = "R" ∨ t = "E" ∨ t = "N" then
        if (t = "r" ∨ t = "R" ∨ t = "E") ∧
            isValidHexFrameId (obj.getField "cid") = false then
          .error (.protocolError ErrorCode.ProtocolViolation)
        else if t = "r" ∧ obj.isStrField "m" = false then
          .error (.protocolError ErrorCode.ProtocolViolation)
        else if t = "E" ∧ obj.isNumField "code" = false then
          .error (.protocolError ErrorCode.ProtocolViolation)
        else if t = "E" ∧ obj.isStrField "message" = false then
          .error (.protocolError ErrorCode.ProtocolViolation)
        else if t = "N" ∧ obj.isStrField "e" = false then
          .error (.protocolError ErrorCode.ProtocolViolation)
        else .ok ()
      else .error (.protocolError ErrorCode.ProtocolViolation)
    | _ => .error (.protocolError ErrorCode.ProtocolViolation)

/-- `decodeJson` from rpc/codec.ts, modelled on the parsed JSON value:
after structural validation, a present string `cid` is re-parsed with
the strict lowercase `frameIdFromHex` (the in-place mutation of the
`cid` property is modelled by returning the parsed bytes alongside the
envelope); a failed re-parse is wrapped as
`ProtocolError(ProtocolViolation)` ("Invalid cid hex value"). -/
def decodeJson (envelope : Json) : Except CodecErr (Json × Option (List Nat)) :=
  match validateEnvelopeStructure envelope with
  | .error e => .error e
  | .ok _ =>
    match envelope.getField "cid" with
    | some (.str s) =>
      (match frameIdFromHex (strChars s) with
       | .ok bytes => .ok (envelope, some bytes)
       | .error _ => .error (.protocolError ErrorCode.ProtocolViolation))
    | _ => .ok (envelope, none)

/-- The malformed shapes listed by the claim (and the spec): non-object;
bad or missing tag; for r/R/E missing or non-matching cid; missing
variant fields. -/
def claimListedFailB (j : Json) : Bool :=
  !objLikeB j ||
  (match j.getField "t" with
   | some (.str t) =>
     !(decide (t = "r") || decide (t = "R") || decide (t = "E") ||
        decide (t = "N")) ||
     ((decide (t = "r") || decide (t = "R") || decide (t = "E")) &&
        !isValidHexFrameId (j.getField "cid")) ||
     (decide (t = "r") && !(j.isStrField "m")) ||
     (decide (t = "E") && (!(j.isNumField "code") || !(j.isStrField "message"))) ||
     (decide (t = "N") && !(j.isStrField "e"))
   | _ => true)

/-- The failure set of the implementation: the listed shapes plus the
re-parse of any present string cid with the strict lowercase parser. -/
def decodeFailsB (j : Json) : Bool :=
  claimListedFailB j ||
  (match j.getField "cid" with
   | some (.str s) => !exceptIsOk (frameIdFromHex (strChars s))
   | _ => false)

/-- The re-parsed cid bytes accompanying a successful decode. -/
def cidExpected (j : Json) : Option (List Nat) :=
  match j.getField "cid" with
  | some (.str s) => (frameIdFromHex (strChars s)).toOption
  | _ => none

end Sideband

namespace Sideband

theorem validate_eq_spec (j : Json) :
    validateEnvelopeStructure j
      = (if claimListedFailB j = true then
          .error (.protocolError ErrorCode.ProtocolViolation)
        else .ok ()) := by
  rw [validateEnvelopeStructure, claimListedFailB]
  cases hobj : objLikeB j
  · simp
  · simp only [Bool.true_eq_false, if_false, Bool.not_true, Bool.false_or]
    match ht : j.getField "t" with
    | none => simp
    | some .null => simp
    | some (.bool b) => simp
    | some (.num n) => simp
    | some (.arr a) => simp
    | some (.obj o) => simp
    | some (.str t) =>
      dsimp only
      by_cases h1 : t = "r" ∨ t = "R" ∨ t = "E" ∨ t = "N"
      · rw [if_pos h1]
        have hB1 : (decide (t = "r") || decide (t = "R") || decide (t = "E") ||
            decide (t = "N")) = true := by
          rcases h1 with h | h | h | h <;> simp [h]
        rw [hB1]
        simp only [Bool.not_true, Bool.false_or]
        by_cases h2 : t = "r" ∨ t = "R" ∨ t = "E"
        · have hB2 : (decide (t = "r") || decide (t = "R") || decide (t = "E"))
              = true := by
            rcases h2 with h | h | h <;> simp [h]
          rw [hB2]
          cases hc : isValidHexFrameId (j.getField "cid")
          · rw [if_pos ⟨h2, rfl⟩]
            simp
          · rw [if_neg (by simp)]
            simp only [Bool.not_true, Bool.and_false, Bool.false_or,
              Bool.true_and]
            rcases h2 with h | h | h
            · subst h
              cases hm : Json.isStrField j "m"
              · rw [if_pos ⟨rfl, rfl⟩]
                simp
              · rw [if_neg (by simp), if_neg (by simp), if_neg (by simp),
                  if_neg (by simp)]
                simp
            · subst h
              rw [if_neg (by simp), if_neg (by simp), if_neg (by simp),
                if_neg (by simp)]
              simp
            · subst h
              cases hcode : Json.isNumField j "code"
              · rw [if_neg (by simp), if_pos ⟨rfl, rfl⟩]
                simp
              · cases hmsg : Json.isStrField j "message"
                · rw [if_neg (by simp), if_neg (by simp),
                    if_pos ⟨rfl, rfl⟩]
                  simp
                · rw [if_neg (by simp), if_neg (by simp), if_neg (by simp),
                    if_neg (by simp)]
                  simp
        · have hN : t = "N" := by tauto
          subst hN
          have hB2 : ((decide (("N" : String) = "r") ||
              decide (("N" : String) = "R") ||
              decide (("N" : String) = "E"))) = false := by decide
          rw [hB2]
          rw [if_neg (by simp [h2]), if_neg (by simp), if_neg (by simp),
            if_neg (by simp)]
          cases he : Json.isStrField j "e"
          · rw [if_pos ⟨rfl, rfl⟩]
            simp
          · rw [if_neg (by simp)]
            simp
      · rw [if_neg h1]
        have hB1 : (decide (t = "r") || decide (t = "R") || decide (t = "E") ||
            decide (t = "N")) = false := by
          simp only [Bool.or_eq_false_iff, decide_eq_false_iff_not]
          tauto
        rw [hB1]
        simp

end Sideband

namespace Sideband

/-- C6 counterexample: the envelope with tag "N", string event and a
stray non-hex string `cid` matches none of the listed malformed shapes
(the list puts no cid condition on "N"), yet decoding fails with
ProtocolViolation because any present string cid is re-parsed with the
strict parser. -/
theorem C6_envelope_decode_counterexample :
    claimListedFailB (.obj [("t", .str "N"), ("e", .str "ev"),
      ("cid", .str "zz")]) = false ∧
    decodeJson (.obj [("t", .str "N"), ("e", .str "ev"),
        ("cid", .str "zz")])
      = .error (.protocolError ErrorCode.ProtocolViolation) :=
  ⟨by decide, by rfl⟩

/-- C6 (amended): decoding fails with ProtocolViolation exactly on the
listed malformed shapes plus one more family: any envelope (any tag,
"N" included) carrying a string `cid` that the strict lowercase
32-hex parser rejects — including uppercase hex that passes the
case-insensitive structural check. On success the envelope passes
through with the cid re-parsed to its 16-byte value when present. -/
theorem C6_envelope_decode (j : Json) :
    (decodeJson j = .error (.protocolError ErrorCode.ProtocolViolation) ↔
      decodeFailsB j = true) ∧
    (∀ p, decodeJson j = .ok p → p.1 = j ∧ p.2 = cidExpected j) := by
  rw [decodeJson, validate_eq_spec, decodeFailsB, cidExpected]
  cases hcl : claimListedFailB j
  · simp only [Bool.false_eq_true, if_false, Bool.false_or]
    match hcid : j.getField "cid" with
    | some (.str s) =>
      dsimp only
      cases hfh : frameIdFromHex (strChars s) with
      | ok bytes =>
        simp [exceptIsOk, hfh, Except.toOption]
      | error e =>
        simp [exceptIsOk, hfh]
    | none => simp
    | some .null => simp
    | some (.bool b) => simp
    | some (.num n) => simp
    | some (.arr a) => simp
    | some (.obj o) => simp
  · simp

/-- Witness for C6 (amended): a request envelope with a lowercase hex
cid decodes with the cid re-parsed to bytes. -/
theorem C6_envelope_decode_witness :
    (decodeJson (.obj [("t", .str "r"), ("m", .str "user.get"),
        ("cid", .str "00112233445566778899aabbccddeeff")])).isOk = true ∧
    cidExpected (.obj [("t", .str "r"), ("m", .str "user.get"),
        ("cid", .str "00112233445566778899aabbccddeeff")])
      = some [0, 17, 34, 51, 68, 85, 102, 119, 136, 153, 170, 187, 204,
          221, 238, 255] := by
  have h := (C6_envelope_decode (.obj [("t", .str "r"),
    ("m", .str "user.get"),
    ("cid", .str "00112233445566778899aabbccddeeff")])).2
  constructor
  · have : decodeJson (.obj [("t", .str "r"), ("m", .str "user.get"),
        ("cid", .str "00112233445566778899aabbccddeeff")])
        = .ok (.obj [("t", .str "r"), ("m", .str "user.get"),
            ("cid", .str "00112233445566778899aabbccddeeff")],
          some [0, 17, 34, 51, 68, 85, 102, 119, 136, 153, 170, 187, 204,
            221, 238, 255]) := by rfl
    rw [this]
    rfl
  · exact (h (.obj [("t", .str "r"), ("m", .str "user.get"),
        ("cid", .str "00112233445566778899aabbccddeeff")],
      some [0, 17, 34, 51, 68, 85, 102, 119, 136, 153, 170, 187, 204,
        221, 238, 255]) (by rfl)).2.symm

end Sideband

namespace Sideband

/-! ## Correlation engine (runtime/src/correlation.ts)

`RpcCorrelationManager` keeps a `Map<string, PendingRequest>` keyed by the
hex encoding of the 16-byte correlation id.  The map is modelled as an
association list in insertion order; a `PendingRequest` record keeps the
timeout handle.  Promise settlements and timer operations are modelled as
emitted events: `resolve(v)` becomes `settled key (resolved v)`,
`reject(r)` becomes `settled key (rejectedWith r)`, and
`setTimeout`/`clearTimeout` become `timerSet`/`timerCleared`.  Operations
that `throw` return `Except.error`. -/

structure PendingRequest where
  timeoutHandle : Nat
deriving DecidableEq

inductive RejectReason
  | custom (v : Nat)
  | timeoutAfter (ms : Nat)
  | peerDisconnected
deriving DecidableEq

inductive Settlement
  | resolved (response : Nat)
  | rejectedWith (reason : RejectReason)
deriving DecidableEq

inductive CorrEvent
  | timerSet (id ms : Nat)
  | timerCleared (id : Nat)
  | settled (key : List Nat) (s : Settlement)
deriving DecidableEq

inductive CorrErr
  | alreadyRegistered (cidHex : List Nat)
  | noPending (cidHex : List Nat)
deriving DecidableEq

structure RpcCorrelationManager where
  pendingRequests : List (List Nat × PendingRequest)
  timeoutMs : Nat
  nextTimerId : Nat
deriving DecidableEq

/-- `cidToKey`: `Buffer.from(cid).toString("hex")`. -/
def cidToKey (cid : List Nat) : List Nat :=
  bytesToHex cid

/-- `Map.get` on the association list (keys are unique in reachable states). -/
def lookupKey : List (List Nat × PendingRequest) → List Nat → Option PendingRequest
  | [], _ => none
  | (k, p) :: rest, key => if k = key then some p else lookupKey rest key

/-- `Map.delete` on the association list: removes the first entry with the key. -/
def removeKey : List (List Nat × PendingRequest) → List Nat → List (List Nat × PendingRequest)
  | [], _ => []
  | (k, p) :: rest, key =>
      if k = key then rest else (k, p) :: removeKey rest key

def registerRequest (m : RpcCorrelationManager) (cid : List Nat) :
    Except CorrErr (RpcCorrelationManager × List CorrEvent) :=
  if (lookupKey m.pendingRequests (cidToKey cid)).isSome then
    .error (.alreadyRegistered (cidToKey cid))
  else
    .ok ({ m with
            pendingRequests :=
              m.pendingRequests ++ [(cidToKey cid, ⟨m.nextTimerId⟩)],
            nextTimerId := m.nextTimerId + 1 },
         [.timerSet m.nextTimerId m.timeoutMs])

def matchResponse (m : RpcCorrelationManager) (cid : List Nat) (response : Nat) :
    Except CorrErr (RpcCorrelationManager × List CorrEvent) :=
  match lookupKey m.pendingRequests (cidToKey cid) with
  | none => .error (.noPending (cidToKey cid))
  | some pending =>
      .ok ({ m with pendingRequests := removeKey m.pendingRequests (cidToKey cid) },
           [.timerCleared pending.timeoutHandle,
            .settled (cidToKey cid) (.resolved response)])

def rejectRequest (m : RpcCorrelationManager) (cid : List Nat) (reason : Nat) :
    Except CorrErr (RpcCorrelationManager × List CorrEvent) :=
  match lookupKey m.pendingRequests (cidToKey cid) with
  | none => .error (.noPending (cidToKey cid))
  | some pending =>
      .ok ({ m with pendingRequests := removeKey m.pendingRequests (cidToKey cid) },
           [.timerCleared pending.timeoutHandle,
            .settled (cidToKey cid) (.rejectedWith (.custom reason))])

/-- The `setTimeout` callback armed by `registerRequest`: it only runs while the
timer is still armed, i.e. while the entry is still pending (every terminal path
deletes the entry and cancels the timer in the same synchronous step). -/
def fireTimeout (m : RpcCorrelationManager) (cid : List Nat) :
    Except CorrErr (RpcCorrelationManager × List CorrEvent) :=
  match lookupKey m.pendingRequests (cidToKey cid) with
  | none => .error (.noPending (cidToKey cid))
  | some _ =>
      .ok ({ m with pendingRequests := removeKey m.pendingRequests (cidToKey cid) },
           [.settled (cidToKey cid) (.rejectedWith (.timeoutAfter m.timeoutMs))])

def clear (m : RpcCorrelationManager) : RpcCorrelationManager × List CorrEvent :=
  ({ m with pendingRequests := [] },
   m.pendingRequests.bind fun e =>
     [.timerCleared e.2.timeoutHandle,
      .settled e.1 (.rejectedWith .peerDisconnected)])

def getPendingCount (m : RpcCorrelationManager) : Nat :=
  m.pendingRequests.length

/-- States reachable from a fresh manager by successful operations. -/
inductive Reachable : RpcCorrelationManager → Prop
  | init (t : Nat) : Reachable ⟨[], t, 0⟩
  | register {m m2 : RpcCorrelationManager} {evs : List CorrEvent} (cid : List Nat)
      (h1 : Reachable m) (h2 : registerRequest m cid = .ok (m2, evs)) :
      Reachable m2
  | matched {m m2 : RpcCorrelationManager} {evs : List CorrEvent} (cid : List Nat)
      (v : Nat) (h1 : Reachable m) (h2 : matchResponse m cid v = .ok (m2, evs)) :
      Reachable m2
  | rejectedStep {m m2 : RpcCorrelationManager} {evs : List CorrEvent} (cid : List Nat)
      (r : Nat) (h1 : Reachable m) (h2 : rejectRequest m cid r = .ok (m2, evs)) :
      Reachable m2
  | timeoutStep {m m2 : RpcCorrelationManager} {evs : List CorrEvent} (cid : List Nat)
      (h1 : Reachable m) (h2 : fireTimeout m cid = .ok (m2, evs)) :
      Reachable m2
  | clearStep {m : RpcCorrelationManager} (h1 : Reachable m) :
      Reachable (clear m).1

theorem lookupKey_eq_none {l : List (List Nat × PendingRequest)} {k : List Nat} :
    lookupKey l k = none ↔ k ∉ l.map Prod.fst := by
  induction l with
  | nil => simp [lookupKey]
  | cons x rest ih =>
    obtain ⟨k0, p0⟩ := x
    by_cases hk : k0 = k
    · subst hk
      simp [lookupKey]
    · simp only [lookupKey, if_neg hk, ih, List.map_cons, List.mem_cons]
      constructor
      · intro hn hc
        rcases hc with rfl | hc
        · exact hk rfl
        · exact hn hc
      · intro hn hc
        exact hn (Or.inr hc)

theorem removeKey_sublist (l : List (List Nat × PendingRequest)) (k : List Nat) :
    (removeKey l k).Sublist l := by
  induction l with
  | nil => simp [removeKey]
  | cons x rest ih =>
    obtain ⟨k0, p0⟩ := x
    by_cases hk : k0 = k
    · simp only [removeKey, if_pos hk]
      exact (List.Sublist.refl rest).cons _
    · simp only [removeKey, if_neg hk]
      exact ih.cons₂ _

theorem lookupKey_removeKey {l : List (List Nat × PendingRequest)} {k : List Nat}
    (h : (l.map Prod.fst).Nodup) :
    lookupKey (removeKey l k) k = none := by
  induction l with
  | nil => rfl
  | cons x rest ih =>
    obtain ⟨k0, p0⟩ := x
    simp only [List.map_cons, List.nodup_cons] at h
    by_cases hk : k0 = k
    · subst hk
      simp only [removeKey, if_pos rfl]
      exact lookupKey_eq_none.mpr h.1
    · simp only [removeKey, if_neg hk, lookupKey, if_neg hk]
      exact ih h.2

theorem removeKey_nodup {l : List (List Nat × PendingRequest)} {k : List Nat}
    (h : (l.map Prod.fst).Nodup) :
    ((removeKey l k).map Prod.fst).Nodup :=
  List.Nodup.sublist ((removeKey_sublist l k).map Prod.fst) h

theorem reachable_nodup {m : RpcCorrelationManager} (h : Reachable m) :
    (m.pendingRequests.map Prod.fst).Nodup := by
  induction h with
  | init t => exact List.nodup_nil
  | register cid h1 h2 ih =>
    rw [registerRequest] at h2
    split at h2
    · exact absurd h2 (by simp)
    · rename_i hns
      simp only [Except.ok.injEq, Prod.mk.injEq] at h2
      obtain ⟨hm, _⟩ := h2
      subst hm
      simp only [List.map_append, List.map_cons, List.map_nil]
      rw [List.nodup_append]
      refine ⟨ih, List.nodup_singleton _, ?_⟩
      intro a ha hb
      rw [List.mem_singleton] at hb
      subst hb
      have hnone : lookupKey _ _ = none := Option.not_isSome_iff_eq_none.mp hns
      exact lookupKey_eq_none.mp hnone ha
  | matched cid v h1 h2 ih =>
    rw [matchResponse] at h2
    split at h2
    · exact absurd h2 (by simp)
    · simp only [Except.ok.injEq, Prod.mk.injEq] at h2
      obtain ⟨hm, _⟩ := h2
      subst hm
      exact removeKey_nodup ih
  | rejectedStep cid r h1 h2 ih =>
    rw [rejectRequest] at h2
    split at h2
    · exact absurd h2 (by simp)
    · simp only [Except.ok.injEq, Prod.mk.injEq] at h2
      obtain ⟨hm, _⟩ := h2
      subst hm
      exact removeKey_nodup ih
  | timeoutStep cid h1 h2 ih =>
    rw [fireTimeout] at h2
    split at h2
    · exact absurd h2 (by simp)
    · simp only [Except.ok.injEq, Prod.mk.injEq] at h2
      obtain ⟨hm, _⟩ := h2
      subst hm
      exact removeKey_nodup ih
  | clearStep h1 ih =>
    exact List.nodup_nil

end Sideband

namespace Sideband

/-- C7: at every reachable state of the correlation engine no two pending
entries share a correlation id; registerRequest on an already-registered
cid fails with an error; and completion is fire-once: after any terminal
event on a cid (matchResponse, rejectRequest, the timeout firing, or
clear) the record is removed from the registry and any further
matchResponse or rejectRequest on that cid fails with an error rather
than being silently ignored. -/
theorem C7_correlation_fire_once (m : RpcCorrelationManager)
    (h : Reachable m) :
    (m.pendingRequests.map Prod.fst).Nodup ∧
    (∀ cid, (lookupKey m.pendingRequests (cidToKey cid)).isSome = true →
      registerRequest m cid = .error (.alreadyRegistered (cidToKey cid))) ∧
    (∀ cid v m2 evs, matchResponse m cid v = .ok (m2, evs) →
      lookupKey m2.pendingRequests (cidToKey cid) = none ∧
      (∀ w, matchResponse m2 cid w = .error (.noPending (cidToKey cid))) ∧
      (∀ r, rejectRequest m2 cid r = .error (.noPending (cidToKey cid)))) ∧
    (∀ cid r m2 evs, rejectRequest m cid r = .ok (m2, evs) →
      lookupKey m2.pendingRequests (cidToKey cid) = none ∧
      (∀ w, matchResponse m2 cid w = .error (.noPending (cidToKey cid))) ∧
      (∀ r2, rejectRequest m2 cid r2 = .error (.noPending (cidToKey cid)))) ∧
    (∀ cid m2 evs, fireTimeout m cid = .ok (m2, evs) →
      lookupKey m2.pendingRequests (cidToKey cid) = none ∧
      (∀ w, matchResponse m2 cid w = .error (.noPending (cidToKey cid))) ∧
      (∀ r, rejectRequest m2 cid r = .error (.noPending (cidToKey cid)))) ∧
    (∀ cid,
      lookupKey (clear m).1.pendingRequests (cidToKey cid) = none ∧
      (∀ w, matchResponse (clear m).1 cid w = .error (.noPending (cidToKey cid))) ∧
      (∀ r, rejectRequest (clear m).1 cid r = .error (.noPending (cidToKey cid)))) := by
  have hnd := reachable_nodup h
  refine ⟨hnd, ?_, ?_, ?_, ?_, ?_⟩
  · intro cid hs
    rw [registerRequest, if_pos hs]
  · intro cid v m2 evs h2
    rw [matchResponse] at h2
    split at h2
    · exact absurd h2 (by simp)
    · simp only [Except.ok.injEq, Prod.mk.injEq] at h2
      obtain ⟨hm, _⟩ := h2
      subst hm
      have hnone : lookupKey
          (RpcCorrelationManager.pendingRequests
            { m with pendingRequests := removeKey m.pendingRequests (cidToKey cid) })
          (cidToKey cid) = none := lookupKey_removeKey hnd
      refine ⟨hnone, ?_, ?_⟩
      · intro w
        rw [matchResponse, hnone]
      · intro r
        rw [rejectRequest, hnone]
  · intro cid r m2 evs h2
    rw [rejectRequest] at h2
    split at h2
    · exact absurd h2 (by simp)
    · simp only [Except.ok.injEq, Prod.mk.injEq] at h2
      obtain ⟨hm, _⟩ := h2
      subst hm
      have hnone : lookupKey
          (RpcCorrelationManager.pendingRequests
            { m with pendingRequests := removeKey m.pendingRequests (cidToKey cid) })
          (cidToKey cid) = none := lookupKey_removeKey hnd
      refine ⟨hnone, ?_, ?_⟩
      · intro w
        rw [matchResponse, hnone]
      · intro r2
        rw [rejectRequest, hnone]
  · intro cid m2 evs h2
    rw [fireTimeout] at h2
    split at h2
    · exact absurd h2 (by simp)
    · simp only [Except.ok.injEq, Prod.mk.injEq] at h2
      obtain ⟨hm, _⟩ := h2
      subst hm
      have hnone : lookupKey
          (RpcCorrelationManager.pendingRequests
            { m with pendingRequests := removeKey m.pendingRequests (cidToKey cid) })
          (cidToKey cid) = none := lookupKey_removeKey hnd
      refine ⟨hnone, ?_, ?_⟩
      · intro w
        rw [matchResponse, hnone]
      · intro r
        rw [rejectRequest, hnone]
  · intro cid
    have hnone : lookupKey (clear m).1.pendingRequests (cidToKey cid) = none := rfl
    refine ⟨hnone, ?_, ?_⟩
    · intro w
      rw [matchResponse, hnone]
    · intro r
      rw [rejectRequest, hnone]

/-- Witness for C7 at a one-entry reachable state: a duplicate register
fails, and a match after the terminal match fails. -/
theorem C7_correlation_fire_once_witness :
    registerRequest (RpcCorrelationManager.mk
        [(cidToKey (List.replicate 16 0), PendingRequest.mk 0)] 30000 1)
        (List.replicate 16 0)
      = .error (.alreadyRegistered (cidToKey (List.replicate 16 0))) ∧
    matchResponse (RpcCorrelationManager.mk [] 30000 1) (List.replicate 16 0) 9
      = .error (.noPending (cidToKey (List.replicate 16 0))) := by
  have hreach : Reachable (RpcCorrelationManager.mk
      [(cidToKey (List.replicate 16 0), PendingRequest.mk 0)] 30000 1) :=
    Reachable.register (List.replicate 16 0) (Reachable.init 30000) rfl
  have h := C7_correlation_fire_once _ hreach
  refine ⟨h.2.1 (List.replicate 16 0) rfl, ?_⟩
  exact (h.2.2.1 (List.replicate 16 0) 7 (RpcCorrelationManager.mk [] 30000 1)
    [CorrEvent.timerCleared 0,
     CorrEvent.settled (cidToKey (List.replicate 16 0)) (Settlement.resolved 7)]
    rfl).2.1 9

/-- C8: clear rejects every outstanding entry with the peer-disconnected
reason, cancels every per-entry timer, leaves the pending count at 0,
emits nothing but those rejections and cancellations, and is idempotent;
as a total function it never fails. -/
theorem C8_clear_rejects_all (m : RpcCorrelationManager) :
    getPendingCount (clear m).1 = 0 ∧
    (∀ k p, (k, p) ∈ m.pendingRequests →
      CorrEvent.timerCleared p.timeoutHandle ∈ (clear m).2 ∧
      CorrEvent.settled k (Settlement.rejectedWith RejectReason.peerDisconnected)
        ∈ (clear m).2) ∧
    (∀ e, e ∈ (clear m).2 →
      (∃ i, e = CorrEvent.timerCleared i) ∨
      (∃ k, e = CorrEvent.settled k
        (Settlement.rejectedWith RejectReason.peerDisconnected))) ∧
    clear (clear m).1 = ((clear m).1, []) := by
  refine ⟨rfl, ?_, ?_, rfl⟩
  · intro k p hmem
    constructor
    · exact List.mem_bind.mpr ⟨(k, p), hmem, by simp⟩
    · exact List.mem_bind.mpr ⟨(k, p), hmem, by simp⟩
  · intro e he
    obtain ⟨a, ha, hea⟩ := List.mem_bind.mp he
    simp only [List.mem_cons, List.not_mem_nil, or_false] at hea
    rcases hea with rfl | rfl
    · exact Or.inl ⟨a.2.timeoutHandle, rfl⟩
    · exact Or.inr ⟨a.1, rfl⟩

/-- Witness for C8 on a manager with one pending entry. -/
theorem C8_clear_rejects_all_witness :
    getPendingCount (clear (RpcCorrelationManager.mk
        [([48, 49], PendingRequest.mk 5)] 1000 1)).1 = 0 ∧
    CorrEvent.timerCleared 5 ∈ (clear (RpcCorrelationManager.mk
        [([48, 49], PendingRequest.mk 5)] 1000 1)).2 ∧
    CorrEvent.settled [48, 49] (Settlement.rejectedWith RejectReason.peerDisconnected)
      ∈ (clear (RpcCorrelationManager.mk
        [([48, 49], PendingRequest.mk 5)] 1000 1)).2 := by
  have h := C8_clear_rejects_all (RpcCorrelationManager.mk
    [([48, 49], PendingRequest.mk 5)] 1000 1)
  have h2 := h.2.1 [48, 49] (PendingRequest.mk 5) (by simp)
  exact ⟨h.1, h2.1, h2.2⟩

end Sideband
